import Mathlib

/-!
# Verification of the multi-series LGBM `Forecaster` wrapper

Shallow embedding of `src/prediction/predictor_model.py`: the `Forecaster`
class that multiplexes a single-series autoregressive regression library
(skforecast `ForecasterAutoreg` over a LightGBM regressor) across the series
of a long-format panel, keyed by an id column.

Modelling conventions:
* A pandas `DataFrame` is a list of `(index label, row)` entries; a row is an
  association list from column name to cell value.  The pandas integer
  `RangeIndex` is carried explicitly because the wrapper manipulates it
  (`history.index = pd.RangeIndex(...)`, `future_df.index = pd.RangeIndex(start, ...)`).
* Python dicts (`self.models`, `self.end_index`) are association lists with
  insert-at-end / update-in-place semantics, matching dict insertion order.
* In-place mutation of caller-owned objects (the input frame mutated by
  `history[col] = ...`, the schema's `future_covariates` list extended by
  `+=`) is modelled by returning the caller-visible object contents after the
  call (`callerHistory`, `callerSchema`, `callerTestData` fields).
* The external libraries (pandas `to_datetime`, skforecast, LightGBM) are
  modelled at their interface: `skFit` records the training data and fails
  when the series is not longer than the largest lag (skforecast raises a
  `ValueError` in that case); `SkModel.predictSteps` returns a deterministic
  forecast of length `steps`.  The regression mathematics is delegated by the
  repository and is outside the wrapper's contract.
* `ForecastingSchema` comes from `schema.data_schema`, which is not part of
  the reviewed sources; it is modelled from the spec (section 6): a record
  exposing `id_col`, `time_col`, `time_col_dtype`, `target`,
  `future_covariates`, `forecast_length`, where `future_covariates` is a
  plain list owned by the schema object (the spec requires the list computed
  at training time to be the one reused at prediction time, which pins the
  shared-list reading of `data_schema.future_covariates`).
-/

namespace RTForecast

/-- A cell value of the panel: integers (also stands in for floats, whose
arithmetic is never inspected by the wrapper), strings, or timestamps, which
`pd.to_datetime` exposes with `dt.year` / `dt.month` accessors. -/
inductive Value where
  | int : Int → Value
  | str : String → Value
  | date : Int → Int → Int → Value
deriving DecidableEq

/-- `pd.to_datetime(col).dt.year` on one cell.  String parsing of dates is
external to the wrapper; dates are modelled structurally. -/
def Value.toYear : Value → Int
  | .date y _ _ => y
  | .int n => n
  | .str _ => 0

/-- `pd.to_datetime(col).dt.month` on one cell. -/
def Value.toMonth : Value → Int
  | .date _ m _ => m
  | .int n => n
  | .str _ => 0

/-- A total comparison used to model pandas `groupby` sorting its group keys. -/
def Value.rank : Value → Nat
  | .int _ => 0
  | .str _ => 1
  | .date _ _ _ => 2

/-- Lexicographic code-point order on character lists. -/
def charsLe : List Char → List Char → Bool
  | [], _ => true
  | _ :: _, [] => false
  | a :: as, b :: bs =>
    if a.toNat < b.toNat then true
    else if b.toNat < a.toNat then false
    else charsLe as bs

/-- Boolean linear pre-order on cell values (pandas sorts group keys). -/
def valueLe (a b : Value) : Bool :=
  match a, b with
  | .int x, .int y => decide (x ≤ y)
  | .str x, .str y => charsLe x.data y.data
  | .date y1 m1 d1, .date y2 m2 d2 =>
      decide (y1 < y2 ∨ (y1 = y2 ∧ (m1 < m2 ∨ (m1 = m2 ∧ d1 ≤ d2))))
  | a, b => decide (a.rank ≤ b.rank)

/-- A row of a frame: association list from column label to cell value. -/
abbrev Row := List (String × Value)

/-- Column access `row[c]`: first entry with the label. -/
def rowGet : Row → String → Option Value
  | [], _ => none
  | p :: r, c => if p.1 = c then some p.2 else rowGet r c

/-- Column assignment `df[c] = v` seen on one row: overwrite the entry in
place if the label exists, otherwise append the new column at the end
(pandas appends new columns on the right). -/
def rowSet : Row → String → Value → Row
  | [], c, v => [(c, v)]
  | p :: r, c, v => if p.1 = c then (c, v) :: r else p :: rowSet r c v

/-- `df.drop(columns=c)` on one row. -/
def rowDropCol : Row → String → Row
  | [], _ => []
  | p :: r, c => if p.1 = c then rowDropCol r c else p :: rowDropCol r c

/-- `df.rename(columns={old: new})` on one row: relabel, keep values. -/
def rowRename (old new : String) : Row → Row
  | [] => []
  | p :: r => (if p.1 = old then (new, p.2) else p) :: rowRename old new r

/-- `df[cs]` column selection on one row, in the order of `cs`. -/
def rowSelect (r : Row) (cs : List String) : Row :=
  cs.filterMap (fun c => (rowGet r c).map (fun v => (c, v)))

/-- A pandas DataFrame: rows paired with their integer index labels. -/
structure DataFrame where
  entries : List (Nat × Row)
deriving DecidableEq

namespace DataFrame

/-- The rows, in order, without their index labels. -/
def rows (df : DataFrame) : List Row := df.entries.map Prod.snd

/-- The index labels, in order. -/
def index (df : DataFrame) : List Nat := df.entries.map Prod.fst

/-- `len(df)`. -/
def nrows (df : DataFrame) : Nat := df.entries.length

/-- `df.index = pd.RangeIndex(start=s, stop=s+len(df))`. -/
def setRangeIndex (df : DataFrame) (start : Nat) : DataFrame :=
  ⟨List.enumFrom start df.rows⟩

/-- `df[c] = f(row)` for a per-row derived column (e.g. `dt.year`). -/
def setColBy (df : DataFrame) (c : String) (f : Row → Value) : DataFrame :=
  ⟨df.entries.map (fun e => (e.1, rowSet e.2 c (f e.2)))⟩

/-- `df[c] = values` for a positional list of values (e.g. `forecast.values`). -/
def setColVals (df : DataFrame) (c : String) (vs : List Value) : DataFrame :=
  ⟨(df.entries.zip vs).map (fun e => (e.1.1, rowSet e.1.2 c e.2))⟩

/-- `df.drop(columns=c)`. -/
def dropCol (df : DataFrame) (c : String) : DataFrame :=
  ⟨df.entries.map (fun e => (e.1, rowDropCol e.2 c))⟩

/-- `df[cs]`: keep the columns of `cs`, in that order. -/
def select (df : DataFrame) (cs : List String) : DataFrame :=
  ⟨df.entries.map (fun e => (e.1, rowSelect e.2 cs))⟩

/-- `df.rename(columns={old: new})`. -/
def renameCol (df : DataFrame) (old new : String) : DataFrame :=
  ⟨df.entries.map (fun e => (e.1, rowRename old new e.2))⟩

/-- Keep the rows satisfying the predicate (used for `get_group`). -/
def filterRows (df : DataFrame) (p : Row → Bool) : DataFrame :=
  ⟨df.entries.filter (fun e => p e.2)⟩

/-- `series[-n:]`: the last `n` rows (all of them when `n ≥ len`). -/
def takeLast (df : DataFrame) (n : Nat) : DataFrame :=
  ⟨df.entries.drop (df.entries.length - n)⟩

/-- The values of column `c`, in row order (`df[c]` as a sequence). -/
def colValues (df : DataFrame) (c : String) : List Value :=
  df.rows.filterMap (fun r => rowGet r c)

/-- `groupby(c).get_group(v)`: the rows whose `c` value is `v`, in order. -/
def getGroup (df : DataFrame) (c : String) (v : Value) : DataFrame :=
  df.filterRows (fun r => rowGet r c == some v)

/-- `df.insert(0, c, v)`: prepend a constant column. -/
def insertCol0 (df : DataFrame) (c : String) (v : Value) : DataFrame :=
  ⟨df.entries.map (fun e => (e.1, (c, v) :: e.2))⟩

end DataFrame

/-- `pd.concat(dfs, axis=0, ignore_index=True)`: stack the rows and assign a
fresh contiguous `RangeIndex`. -/
def concatIgnoreIndex (dfs : List DataFrame) : DataFrame :=
  ⟨List.enum (dfs.map DataFrame.rows).flatten⟩

/-- Insertion into a sorted list of group keys. -/
def insertSorted (v : Value) : List Value → List Value
  | [] => [v]
  | w :: ws => if valueLe v w then v :: w :: ws else w :: insertSorted v ws

/-- Insertion sort of group keys (pandas `groupby` sorts keys by default). -/
def sortValues : List Value → List Value
  | [] => []
  | v :: vs => insertSorted v (sortValues vs)

/-- `list(df.groupby(c).groups.keys())`: the distinct values of column `c`,
sorted. -/
def groupKeys (df : DataFrame) (c : String) : List Value :=
  sortValues (df.colValues c).dedup

/-- Python dict lookup `d.get(k)`. -/
def dictGet {β : Type} : List (Value × β) → Value → Option β
  | [], _ => none
  | p :: d, k => if p.1 = k then some p.2 else dictGet d k

/-- Python dict update `d[k] = v`: overwrite in place, else append. -/
def dictSet {β : Type} : List (Value × β) → Value → β → List (Value × β)
  | [], k, v => [(k, v)]
  | p :: d, k, v => if p.1 = k then (k, v) :: d else p :: dictSet d k v

/-- Modelled from the spec: `ForecastingSchema` of `schema.data_schema` (not
among the reviewed sources), per spec section 6: id column, time column and
its dtype tag (`"DATE"`, `"DATETIME"`, or other), target column, the list of
declared future covariates, and the forecast horizon. -/
structure ForecastingSchema where
  id_col : String
  time_col : String
  time_col_dtype : String
  target : String
  future_covariates : List String
  forecast_length : Nat
deriving DecidableEq

/-- Name of the derived calendar-year covariate column. -/
def yearName (s : ForecastingSchema) : String := s.time_col ++ "_year"

/-- Name of the derived calendar-month covariate column. -/
def monthName (s : ForecastingSchema) : String := s.time_col ++ "_month"

/-- The time column is tagged as calendar-typed. -/
def isDateLike (s : ForecastingSchema) : Bool :=
  s.time_col_dtype == "DATE" || s.time_col_dtype == "DATETIME"

/-- `Forecaster._add_future_covariates_from_date`.

Returns the frame after the call, the resolved covariate-name list
(`future_covariates_names`), and the caller's schema object after the call.
The source binds `future_covariates_names = data_schema.future_covariates`
(an alias of the schema's own list) and, in training mode, extends it with
`+=` — an in-place mutation of the schema's list, reflected in the returned
schema. -/
def addFutureCovariatesFromDate (history : DataFrame) (schema : ForecastingSchema)
    (is_training : Bool) : DataFrame × List String × ForecastingSchema :=
  if isDateLike schema then
    let h1 := history.setColBy (yearName schema)
      (fun r => .int (((rowGet r schema.time_col).getD (.int 0)).toYear))
    let h2 := h1.setColBy (monthName schema)
      (fun r => .int (((rowGet r schema.time_col).getD (.int 0)).toMonth))
    if is_training then
      let covs := schema.future_covariates ++ [yearName schema, monthName schema]
      (h2, covs, { schema with future_covariates := covs })
    else
      (h2, schema.future_covariates, schema)
  else
    (history, schema.future_covariates, schema)

/-- The trained state of a `ForecasterAutoreg(regressor=LGBMRegressor(...))`:
the lag specification and the training data it received.  The regression
algorithm itself is an external collaborator (spec section 1); only its
interface contract is modelled. -/
structure SkModel where
  lags : Nat
  y : List Value
  exog : Option DataFrame
deriving DecidableEq

/-- `ForecasterAutoreg(...).fit(y=..., exog=...)`: skforecast raises a
`ValueError` when the series is not longer than the maximum lag; otherwise
the fitted forecaster records its training data. -/
def skFit (lags : Nat) (y : List Value) (exog : Option DataFrame) :
    Except String SkModel :=
  if y.length ≤ lags then
    .error "ValueError: the maximum lag must be less than the length of the series"
  else
    .ok ⟨lags, y, exog⟩

/-- `forecaster.predict(steps=..., exog=...)`: a deterministic forecast of
length `steps` (the regression output itself is delegated; the wrapper only
relies on the length contract). -/
def SkModel.predictSteps (m : SkModel) (steps : Nat) (_exog : Option DataFrame) :
    List Value :=
  List.replicate steps (m.y.getLastD (.int 0))

/-- `exog = history[covariates] if covariates and self.use_exogenous else None`
(the guard shared verbatim by `_fit_on_series` and `_predict_on_series`). -/
def mkExog (covariates : List String) (use_exogenous : Bool) (df : DataFrame) :
    Option DataFrame :=
  if !covariates.isEmpty && use_exogenous then some (df.select covariates) else none

/-- The `Forecaster` instance state: configuration fixed at construction,
the trained flag, the per-id model dict, the recorded id list, the per-id
end-index dict, and the stored schema.  (`np.random.seed` touches global
library state only and is outside the instance.) -/
structure Forecaster where
  use_exogenous : Bool
  lags : Nat
  history_length : Option Nat
  is_trained : Bool
  models : List (Value × SkModel)
  all_ids : List Value
  end_index : List (Value × Nat)
  data_schema : ForecastingSchema
deriving DecidableEq

/-- `Forecaster.__init__`: `history_length` is set only when the ratio
argument is truthy (Python treats `None` and `0` alike here), and
`lags_forecast_ratio`, when truthy, overrides `lags` with
`forecast_length * ratio`. -/
def Forecaster.init (data_schema : ForecastingSchema)
    (history_forecast_ratio lags_forecast_ratio : Option Nat)
    (lags : Nat) (use_exogenous : Bool) : Forecaster :=
  { use_exogenous := use_exogenous
    lags := match lags_forecast_ratio with
      | some r => if r = 0 then lags else data_schema.forecast_length * r
      | none => lags
    history_length := match history_forecast_ratio with
      | some r => if r = 0 then none else some (data_schema.forecast_length * r)
      | none => none
    is_trained := false
    models := []
    all_ids := []
    end_index := []
    data_schema := data_schema }

/-- `Forecaster._fit_on_series`: reset the series to a zero-based range
index, record `end_index[id] = len(history)` (before the library fit, hence
also when that fit fails), build the exogenous sub-frame, and fit the
underlying forecaster on the target column. -/
def Forecaster.fitOnSeries (f : Forecaster) (history : DataFrame)
    (data_schema : ForecastingSchema) (id : Value)
    (future_covariates : List String) : Forecaster × Except String SkModel :=
  let history := history.setRangeIndex 0
  let f := { f with end_index := dictSet f.end_index id history.nrows }
  let exog := mkExog future_covariates f.use_exogenous history
  (f, skFit f.lags (history.colValues data_schema.target) exog)

/-- The caller-visible outcome of `Forecaster.fit`: the instance state after
the call (also when a per-series fit raised), the propagated exception if
any, and the contents of the caller's `history` frame and schema object
after the call (both are mutated in place by the covariate derivation). -/
structure FitOutcome where
  state : Forecaster
  err : Option String
  callerHistory : DataFrame
  callerSchema : ForecastingSchema
deriving DecidableEq

/-- `if self.history_length: series = series[-self.history_length:]` —
Python truthiness: `None` and `0` both skip the truncation. -/
def truncSeries : Option Nat → DataFrame → DataFrame
  | some n, df => if n = 0 then df else df.takeLast n
  | none, df => df

/-- The per-id loop of `Forecaster.fit`: truncate to the most recent
`history_length` rows when configured, fit the series (which records its
end index), and on success commit `self.models[id] = model`; an exception
aborts the loop with the state as already mutated. -/
def fitLoop (f : Forecaster) (data_schema : ForecastingSchema)
    (future_covariates : List String) :
    List (Value × DataFrame) → Forecaster × Option String
  | [] => (f, none)
  | (id, series) :: rest =>
    match f.fitOnSeries (truncSeries f.history_length series) data_schema id
        future_covariates with
    | (f1, .error e) => (f1, some e)
    | (f1, .ok m) =>
      fitLoop { f1 with models := dictSet f1.models id m }
        data_schema future_covariates rest

/-- `Forecaster.fit`: derive calendar covariates (training mode, mutating
the caller's frame and schema list in place), group by the id column with
sorted group keys, reset `self.models` to empty, fit each series in key
order, and only on full success set `all_ids`, the trained flag, and the
stored schema. -/
def Forecaster.fit (f : Forecaster) (history : DataFrame)
    (data_schema : ForecastingSchema) : FitOutcome :=
  let der := addFutureCovariatesFromDate history data_schema true
  let history := der.1
  let future_covariates := der.2.1
  let schema := der.2.2
  let all_ids := groupKeys history data_schema.id_col
  let all_series := all_ids.map
    (fun id => (history.getGroup data_schema.id_col id).dropCol data_schema.id_col)
  let f0 := { f with models := [] }
  match fitLoop f0 data_schema future_covariates (all_ids.zip all_series) with
  | (f1, some e) =>
    { state := f1, err := some e, callerHistory := history, callerSchema := schema }
  | (f1, none) =>
    { state := { f1 with all_ids := all_ids, is_trained := true, data_schema := schema }
      err := none, callerHistory := history, callerSchema := schema }

/-- `Forecaster._predict_on_series`: look up the stored end index (a
`KeyError` when absent), re-index the forward frame to continue there,
build the exogenous slice, and either forecast `len(future_df)` steps with
the stored model, writing the values into the target column, or — when no
model exists for the id — return `None`. -/
def Forecaster.predictOnSeries (f : Forecaster) (future_df : DataFrame)
    (id : Value) (future_covariates : List String) :
    Except String (Option DataFrame) :=
  match dictGet f.end_index id with
  | none => .error "KeyError: end_index"
  | some start =>
    let future_df := future_df.setRangeIndex start
    let exog := mkExog future_covariates f.use_exogenous future_df
    match dictGet f.models id with
    | some m =>
      let forecast := m.predictSteps future_df.nrows exog
      .ok (some (future_df.setColVals f.data_schema.target forecast))
    | none => .ok none

instance {ε α : Type} [DecidableEq ε] [DecidableEq α] : DecidableEq (Except ε α) :=
  fun x y =>
    match x, y with
    | .error a, .error b =>
      if h : a = b then isTrue (congrArg Except.error h)
      else isFalse (fun hh => h (by cases hh; rfl))
    | .ok a, .ok b =>
      if h : a = b then isTrue (congrArg Except.ok h)
      else isFalse (fun hh => h (by cases hh; rfl))
    | .error _, .ok _ => isFalse (fun hh => Except.noConfusion hh)
    | .ok _, .error _ => isFalse (fun hh => Except.noConfusion hh)

/-- The caller-visible outcome of `Forecaster.predict`: the returned frame
or the propagated exception, the instance state after the call (the source
assigns no attribute in `predict`, so it is the input state), and the
contents of the caller's `test_data` frame after the call. -/
structure PredictOutcome where
  result : Except String DataFrame
  state : Forecaster
  callerTestData : DataFrame
deriving DecidableEq

/-- The per-id loop of `Forecaster.predict`: forecast each recorded id's
forward frame and prepend the id column; a `None` from the per-series step
would hit `forecast.insert` and raise an `AttributeError`. -/
def predictLoop (f : Forecaster) (future_covariates : List String) :
    List (Value × DataFrame) → Except String (List DataFrame)
  | [] => .ok []
  | (id, series) :: rest =>
    match f.predictOnSeries series id future_covariates with
    | .error e => .error e
    | .ok none => .error "AttributeError: NoneType object has no attribute insert"
    | .ok (some df) =>
      match predictLoop f future_covariates rest with
      | .error e => .error e
      | .ok out => .ok ((df.insertCol0 f.data_schema.id_col id) :: out)

/-- `Forecaster.predict`: reject when untrained; derive calendar covariates
(prediction mode, mutating the caller's frame but not the schema); group the
test data and take each recorded id's group (`get_group` raises a `KeyError`
for a recorded id with no test rows); forecast per id in recorded order;
concatenate with a fresh contiguous index and rename the target column. -/
def Forecaster.predict (f : Forecaster) (test_data : DataFrame)
    (prediction_col_name : String) : PredictOutcome :=
  if !f.is_trained then
    { result := .error "NotFittedError: Model is not fitted yet."
      state := f, callerTestData := test_data }
  else
    let der := addFutureCovariatesFromDate test_data f.data_schema false
    let test := der.1
    let future_covariates := der.2.1
    if f.all_ids.any (fun id => (test.getGroup f.data_schema.id_col id).nrows == 0) then
      { result := .error "KeyError: get_group", state := f, callerTestData := test }
    else
      let all_series := f.all_ids.map
        (fun id => (test.getGroup f.data_schema.id_col id).dropCol f.data_schema.id_col)
      match predictLoop f future_covariates (f.all_ids.zip all_series) with
      | .error e => { result := .error e, state := f, callerTestData := test }
      | .ok frames =>
        let out := concatIgnoreIndex frames
        let out := out.renameCol f.data_schema.target prediction_col_name
        { result := .ok out, state := f, callerTestData := test }

/-- The caller-visible outcome of `Forecaster.save`: the serialized blob
(modelled as the instance itself, `joblib.dump` being an opaque external
serializer) or the not-fitted exception; the state is untouched. -/
structure SaveOutcome where
  result : Except String Forecaster
  state : Forecaster
deriving DecidableEq

/-- `Forecaster.save`: reject when untrained, else serialize the whole
instance as one blob. -/
def Forecaster.save (f : Forecaster) : SaveOutcome :=
  if !f.is_trained then
    { result := .error "NotFittedError: Model is not fitted yet.", state := f }
  else
    { result := .ok f, state := f }

/-- `Forecaster.load`: deserialize the blob — the whole instance — with no
further validation. -/
def Forecaster.load (blob : Forecaster) : Forecaster := blob

/-! ## Concrete fixtures used by witnesses and counterexamples -/

/-- A small schema with a calendar-typed time column and no declared
covariates. -/
def exSchema : ForecastingSchema :=
  { id_col := "id", time_col := "t", time_col_dtype := "DATE", target := "y"
    future_covariates := [], forecast_length := 2 }

/-- One panel row. -/
def exRow (id : String) (d : Int) (v : Int) : Row :=
  [("id", .str id), ("t", .date 2020 1 d), ("y", .int v)]

/-- Training panel: ids `A` and `B`, three rows each, interleaved. -/
def exHist : DataFrame :=
  ⟨List.enum [exRow "A" 1 10, exRow "B" 1 20, exRow "A" 2 11,
              exRow "B" 2 21, exRow "A" 3 12, exRow "B" 3 22]⟩

/-- Forward panel: two future rows for each of `A`, `B`, and an id `C` never
seen at fit time. -/
def exTest : DataFrame :=
  ⟨List.enum [exRow "A" 4 0, exRow "B" 4 0, exRow "C" 4 0,
              exRow "A" 5 0, exRow "B" 5 0, exRow "C" 5 0]⟩

/-- A fresh forecaster over `exSchema` with `lags = 1` and exogenous use. -/
def exF0 : Forecaster := Forecaster.init exSchema none none 1 true

/-- The outcome of fitting `exF0` on `exHist`. -/
def exFit : FitOutcome := exF0.fit exHist exSchema

/-- The concrete predict output frame of the running example. -/
def exPredOut : DataFrame :=
  match (exFit.state.predict exTest "pred").result with
  | .ok df => df
  | .error _ => ⟨[]⟩

/-- Training panel holding only id `A` (used for the re-fit scenario). -/
def exHistA : DataFrame :=
  ⟨List.enum [exRow "A" 1 10, exRow "A" 2 11, exRow "A" 3 12]⟩

/-- Re-fit of the already-fitted state on the single-id panel. -/
def exRefit : FitOutcome := exFit.state.fit exHistA exSchema

/-- A fresh forecaster with `lags = 5`, so that a two-row series makes the
underlying library fit fail. -/
def exF5 : Forecaster := Forecaster.init exSchema none none 5 true

/-- Panel where id `A` has six rows (enough for `lags = 5`) and id `B` has
two rows (too few): fitting `B` raises. -/
def exHistShortB : DataFrame :=
  ⟨List.enum [exRow "A" 1 10, exRow "A" 2 11, exRow "A" 3 12,
              exRow "A" 4 13, exRow "A" 5 14, exRow "A" 6 15,
              exRow "B" 1 20, exRow "B" 2 21]⟩

/-- The outcome of the failing fit. -/
def exFitFail : FitOutcome := exF5.fit exHistShortB exSchema

/-- Sanity conditions on a schema's column names: the id, target and derived
calendar column names are pairwise distinct (as they are for any real panel
schema; a clash would make distinct column roles share one physical column). -/
@[reducible] def ForecastingSchema.wf (s : ForecastingSchema) : Prop :=
  s.id_col ≠ s.target ∧
  s.id_col ≠ yearName s ∧ s.id_col ≠ monthName s ∧
  s.target ≠ yearName s ∧ s.target ≠ monthName s ∧
  yearName s ≠ monthName s

/-- Number of rows of `df` whose `c` column holds `v`: the number of rows of
the `groupby(c)` group of `v`. -/
def countId (df : DataFrame) (c : String) (v : Value) : Nat :=
  (df.rows.filter (fun r => rowGet r c == some v)).length

/-! ## Row and dict lemmas -/

theorem rowGet_cons (c : String) (v : Value) (r : Row) :
    rowGet ((c, v) :: r) c = some v := by
  simp [rowGet]

theorem rowGet_rowSet_self (r : Row) (c : String) (v : Value) :
    rowGet (rowSet r c v) c = some v := by
  induction r with
  | nil => simp [rowSet, rowGet]
  | cons p r ih =>
    by_cases h : p.1 = c
    · simp [rowSet, h, rowGet]
    · simp [rowSet, h, rowGet, ih]

theorem rowGet_rowSet_ne (r : Row) {c c' : String} (v : Value) (h : c' ≠ c) :
    rowGet (rowSet r c v) c' = rowGet r c' := by
  induction r with
  | nil => simp [rowSet, rowGet, Ne.symm h]
  | cons p r ih =>
    by_cases hp : p.1 = c
    · simp [rowSet, hp, rowGet, Ne.symm h, hp ▸ (Ne.symm h)]
    · by_cases hp' : p.1 = c'
      · simp [rowSet, hp, rowGet, hp', h]
      · simp [rowSet, hp, rowGet, hp', ih]

theorem rowGet_rowDropCol_ne (r : Row) {c c' : String} (h : c' ≠ c) :
    rowGet (rowDropCol r c) c' = rowGet r c' := by
  induction r with
  | nil => simp [rowDropCol]
  | cons p r ih =>
    by_cases hp : p.1 = c
    · simp [rowDropCol, hp, rowGet, Ne.symm h, ih]
    · by_cases hp' : p.1 = c'
      · simp [rowDropCol, hp, rowGet, hp', h]
      · simp [rowDropCol, hp, rowGet, hp', ih]

theorem rowGet_rowRename_none {r : Row} {old new : String} (h : new ≠ old) :
    rowGet (rowRename old new r) old = none := by
  induction r with
  | nil => simp [rowRename, rowGet]
  | cons p r ih =>
    by_cases hp : p.1 = old
    · simp [rowRename, hp, rowGet, h, ih]
    · simp [rowRename, hp, rowGet, hp, ih]

theorem rowGet_rowRename_isSome {r : Row} {old : String} (new : String)
    (h : (rowGet r old).isSome) :
    (rowGet (rowRename old new r) new).isSome := by
  induction r with
  | nil => simp [rowGet] at h
  | cons p r ih =>
    by_cases hp : p.1 = old
    · simp [rowRename, hp, rowGet]
    · by_cases hn : p.1 = new
      · simp [rowRename, hp, hn, rowGet, hn ▸ hp]
      · simp [rowGet, hp] at h
        simp [rowRename, hp, hn, rowGet, ih h]

theorem rowRename_cons_ne {c : String} (v : Value) (r : Row)
    {old : String} (new : String) (h : c ≠ old) :
    rowRename old new ((c, v) :: r) = (c, v) :: rowRename old new r := by
  simp [rowRename, h]

theorem dictGet_dictSet_self {β : Type} (d : List (Value × β)) (k : Value) (v : β) :
    dictGet (dictSet d k v) k = some v := by
  induction d with
  | nil => simp [dictSet, dictGet]
  | cons p d ih =>
    by_cases h : p.1 = k
    · simp [dictSet, h, dictGet]
    · simp [dictSet, h, dictGet, ih]

theorem dictGet_dictSet_ne {β : Type} (d : List (Value × β)) {k k' : Value} (v : β)
    (h : k' ≠ k) : dictGet (dictSet d k v) k' = dictGet d k' := by
  induction d with
  | nil => simp [dictSet, dictGet, Ne.symm h]
  | cons p d ih =>
    by_cases hp : p.1 = k
    · simp [dictSet, hp, dictGet, Ne.symm h, hp ▸ (Ne.symm h)]
    · by_cases hp' : p.1 = k'
      · simp [dictSet, hp, dictGet, hp', h]
      · simp [dictSet, hp, dictGet, hp', ih]

theorem dictGet_isSome_iff_mem {β : Type} (d : List (Value × β)) (k : Value) :
    (dictGet d k).isSome ↔ k ∈ d.map Prod.fst := by
  induction d with
  | nil => simp [dictGet]
  | cons p d ih =>
    by_cases h : p.1 = k
    · simp [dictGet, h]
    · simp [dictGet, h, ih, Ne.symm h]

theorem map_fst_dictSet_notMem {β : Type} {d : List (Value × β)} {k : Value} (v : β)
    (h : k ∉ d.map Prod.fst) :
    (dictSet d k v).map Prod.fst = d.map Prod.fst ++ [k] := by
  induction d with
  | nil => simp [dictSet]
  | cons p d ih =>
    simp only [List.map_cons, List.mem_cons] at h
    push_neg at h
    simp [dictSet, Ne.symm h.1, ih h.2]

/-! ## DataFrame operation lemmas -/

theorem rows_setRangeIndex (df : DataFrame) (s : Nat) :
    (df.setRangeIndex s).rows = df.rows := by
  simp [DataFrame.setRangeIndex, DataFrame.rows, List.enumFrom_map_snd]

theorem nrows_setRangeIndex (df : DataFrame) (s : Nat) :
    (df.setRangeIndex s).nrows = df.nrows := by
  simp [DataFrame.setRangeIndex, DataFrame.nrows, DataFrame.rows, List.enumFrom_length]

theorem index_setRangeIndex (df : DataFrame) (s : Nat) :
    (df.setRangeIndex s).index = List.range' s df.nrows := by
  simp [DataFrame.setRangeIndex, DataFrame.index, DataFrame.nrows, DataFrame.rows,
    List.enumFrom_map_fst]

theorem rows_setColBy (df : DataFrame) (c : String) (f : Row → Value) :
    (df.setColBy c f).rows = df.rows.map (fun r => rowSet r c (f r)) := by
  simp [DataFrame.setColBy, DataFrame.rows, List.map_map]

theorem nrows_setColBy (df : DataFrame) (c : String) (f : Row → Value) :
    (df.setColBy c f).nrows = df.nrows := by
  simp [DataFrame.setColBy, DataFrame.nrows]

theorem rows_dropCol (df : DataFrame) (c : String) :
    (df.dropCol c).rows = df.rows.map (fun r => rowDropCol r c) := by
  simp [DataFrame.dropCol, DataFrame.rows, List.map_map]

theorem nrows_dropCol (df : DataFrame) (c : String) :
    (df.dropCol c).nrows = df.nrows := by
  simp [DataFrame.dropCol, DataFrame.nrows]

theorem rows_insertCol0 (df : DataFrame) (c : String) (v : Value) :
    (df.insertCol0 c v).rows = df.rows.map (fun r => (c, v) :: r) := by
  simp [DataFrame.insertCol0, DataFrame.rows, List.map_map]

theorem rows_renameCol (df : DataFrame) (old new : String) :
    (df.renameCol old new).rows = df.rows.map (rowRename old new) := by
  simp [DataFrame.renameCol, DataFrame.rows, List.map_map]

theorem rows_getGroup (df : DataFrame) (c : String) (v : Value) :
    (df.getGroup c v).rows = df.rows.filter (fun r => rowGet r c == some v) := by
  simp only [DataFrame.getGroup, DataFrame.filterRows, DataFrame.rows, List.filter_map]
  rfl

theorem nrows_getGroup (df : DataFrame) (c : String) (v : Value) :
    (df.getGroup c v).nrows = countId df c v := by
  have h := congrArg List.length (rows_getGroup df c v)
  simpa [DataFrame.nrows, DataFrame.rows, countId] using h

theorem nrows_setColVals (df : DataFrame) (c : String) {vs : List Value}
    (h : vs.length = df.nrows) : (df.setColVals c vs).nrows = df.nrows := by
  simp [DataFrame.setColVals, DataFrame.nrows] at h ⊢
  omega

theorem index_setColVals (df : DataFrame) (c : String) {vs : List Value}
    (h : vs.length = df.nrows) : (df.setColVals c vs).index = df.index := by
  obtain ⟨es⟩ := df
  simp only [DataFrame.setColVals, DataFrame.index, DataFrame.nrows] at h ⊢
  induction es generalizing vs with
  | nil => simp
  | cons e es ih =>
    cases vs with
    | nil => simp at h
    | cons v vs =>
      simp only [List.length_cons] at h
      simp only [List.zip_cons_cons, List.map_cons, List.map_map]
      simpa [List.map_map] using ih (Nat.succ_injective h)

theorem mem_rows_setColVals {df : DataFrame} {c : String} {vs : List Value} {r : Row}
    (h : r ∈ (df.setColVals c vs).rows) : (rowGet r c).isSome := by
  simp only [DataFrame.setColVals, DataFrame.rows, List.map_map, List.mem_map] at h
  obtain ⟨e, _, he⟩ := h
  simp only [Function.comp] at he
  rw [← he]
  simp [rowGet_rowSet_self]

/-! ## Group key lemmas -/

theorem insertSorted_perm (v : Value) (l : List Value) :
    List.Perm (insertSorted v l) (v :: l) := by
  induction l with
  | nil => simp [insertSorted]
  | cons w ws ih =>
    by_cases h : valueLe v w
    · simp [insertSorted, h]
    · simp only [insertSorted, h, Bool.false_eq_true, if_false]
      exact (ih.cons w).trans (List.Perm.swap v w ws)

theorem sortValues_perm (l : List Value) : List.Perm (sortValues l) l := by
  induction l with
  | nil => simp [sortValues]
  | cons v vs ih => exact (insertSorted_perm v (sortValues vs)).trans (ih.cons v)

theorem mem_groupKeys {df : DataFrame} {c : String} {v : Value} :
    v ∈ groupKeys df c ↔ v ∈ df.colValues c := by
  unfold groupKeys
  rw [(sortValues_perm _).mem_iff, List.mem_dedup]

theorem nodup_groupKeys (df : DataFrame) (c : String) : (groupKeys df c).Nodup := by
  unfold groupKeys
  exact ((sortValues_perm _).nodup_iff).mpr (List.nodup_dedup _)

/-! ## Fit loop lemmas -/

/-- The instance fields that `fit`'s per-series loop never assigns. -/
def sameCfg (a b : Forecaster) : Prop :=
  a.use_exogenous = b.use_exogenous ∧ a.lags = b.lags ∧
  a.history_length = b.history_length ∧ a.is_trained = b.is_trained ∧
  a.all_ids = b.all_ids ∧ a.data_schema = b.data_schema

theorem fitOnSeries_end_index (f : Forecaster) (s : DataFrame)
    (sch : ForecastingSchema) (id : Value) (covs : List String) :
    (f.fitOnSeries s sch id covs).1.end_index = dictSet f.end_index id s.nrows := by
  simp [Forecaster.fitOnSeries, nrows_setRangeIndex]

theorem fitOnSeries_models (f : Forecaster) (s : DataFrame)
    (sch : ForecastingSchema) (id : Value) (covs : List String) :
    (f.fitOnSeries s sch id covs).1.models = f.models := rfl

theorem fitOnSeries_result (f : Forecaster) (s : DataFrame)
    (sch : ForecastingSchema) (id : Value) (covs : List String) :
    (f.fitOnSeries s sch id covs).2 =
      skFit f.lags ((s.setRangeIndex 0).colValues sch.target)
        (mkExog covs f.use_exogenous (s.setRangeIndex 0)) := rfl

theorem fitLoop_sameCfg (sch : ForecastingSchema) (covs : List String) :
    ∀ (l : List (Value × DataFrame)) (f : Forecaster),
      sameCfg (fitLoop f sch covs l).1 f
  | [], _ => ⟨rfl, rfl, rfl, rfl, rfl, rfl⟩
  | (id, series) :: rest, f => by
    rw [fitLoop]
    rcases hout : f.fitOnSeries (truncSeries f.history_length series) sch id covs
      with ⟨f1, r⟩
    have hf1 : f1 = { f with end_index := dictSet f.end_index id ((truncSeries f.history_length series).setRangeIndex 0).nrows } := by
      have := congrArg Prod.fst hout
      simpa [Forecaster.fitOnSeries] using this.symm
    cases r with
    | error e =>
      subst hf1
      exact ⟨rfl, rfl, rfl, rfl, rfl, rfl⟩
    | ok m =>
      have ih := fitLoop_sameCfg sch covs rest { f1 with models := dictSet f1.models id m }
      subst hf1
      exact ih

theorem dictGet_isSome_dictSet {β : Type} (d : List (Value × β)) (k k' : Value) (v : β)
    (h : (dictGet d k').isSome) : (dictGet (dictSet d k v) k').isSome := by
  by_cases hk : k' = k
  · subst hk
    simp [dictGet_dictSet_self]
  · rwa [dictGet_dictSet_ne _ _ hk]

theorem skFit_ok {lags : Nat} {y : List Value} {exog : Option DataFrame} {m : SkModel}
    (h : skFit lags y exog = .ok m) : m = ⟨lags, y, exog⟩ := by
  unfold skFit at h
  split at h
  · exact absurd h (by simp)
  · exact (Except.ok.injEq _ _ ▸ h).symm

theorem fitLoop_models_lookup_preserved (sch : ForecastingSchema) (covs : List String) :
    ∀ (l : List (Value × DataFrame)) (f : Forecaster) (k : Value),
      k ∉ l.map Prod.fst →
      dictGet (fitLoop f sch covs l).1.models k = dictGet f.models k
  | [], _, _ => fun _ => rfl
  | (id, series) :: rest, f, k => by
    intro hk
    simp only [List.map_cons, List.mem_cons] at hk
    push_neg at hk
    rw [fitLoop]
    rcases hout : f.fitOnSeries (truncSeries f.history_length series) sch id covs
      with ⟨f1, r⟩
    have hf1 : f1 = { f with end_index := dictSet f.end_index id ((truncSeries f.history_length series).setRangeIndex 0).nrows } := by
      have := congrArg Prod.fst hout
      simpa [Forecaster.fitOnSeries] using this.symm
    cases r with
    | error e =>
      subst hf1
      rfl
    | ok m =>
      have ih := fitLoop_models_lookup_preserved sch covs rest
        { f1 with models := dictSet f1.models id m } k hk.2
      subst hf1
      rw [ih]
      exact dictGet_dictSet_ne _ _ hk.1

theorem fitLoop_end_lookup_preserved (sch : ForecastingSchema) (covs : List String) :
    ∀ (l : List (Value × DataFrame)) (f : Forecaster) (k : Value),
      k ∉ l.map Prod.fst →
      dictGet (fitLoop f sch covs l).1.end_index k = dictGet f.end_index k
  | [], _, _ => fun _ => rfl
  | (id, series) :: rest, f, k => by
    intro hk
    simp only [List.map_cons, List.mem_cons] at hk
    push_neg at hk
    rw [fitLoop]
    rcases hout : f.fitOnSeries (truncSeries f.history_length series) sch id covs
      with ⟨f1, r⟩
    have hf1 : f1 = { f with end_index := dictSet f.end_index id ((truncSeries f.history_length series).setRangeIndex 0).nrows } := by
      have := congrArg Prod.fst hout
      simpa [Forecaster.fitOnSeries] using this.symm
    cases r with
    | error e =>
      subst hf1
      exact dictGet_dictSet_ne _ _ hk.1
    | ok m =>
      have ih := fitLoop_end_lookup_preserved sch covs rest
        { f1 with models := dictSet f1.models id m } k hk.2
      subst hf1
      rw [ih]
      exact dictGet_dictSet_ne _ _ hk.1

theorem fitLoop_ok_models (sch : ForecastingSchema) (covs : List String) :
    ∀ (l : List (Value × DataFrame)) (f : Forecaster) (f' : Forecaster),
      (l.map Prod.fst).Nodup →
      (∀ p ∈ l, p.1 ∉ f.models.map Prod.fst) →
      fitLoop f sch covs l = (f', none) →
      f'.models.map Prod.fst = f.models.map Prod.fst ++ l.map Prod.fst
  | [], f, f', _, _, h => by
    have : f = f' := congrArg Prod.fst h
    simp [← this]
  | (id, series) :: rest, f, f', hnd, hfresh, h => by
    simp only [List.map_cons, List.nodup_cons] at hnd
    rw [fitLoop] at h
    rcases hout : f.fitOnSeries (truncSeries f.history_length series) sch id covs
      with ⟨f1, r⟩
    have hf1 : f1 = { f with end_index := dictSet f.end_index id ((truncSeries f.history_length series).setRangeIndex 0).nrows } := by
      have := congrArg Prod.fst hout
      simpa [Forecaster.fitOnSeries] using this.symm
    rw [hout] at h
    cases r with
    | error e => exact absurd (congrArg Prod.snd h) (by simp)
    | ok m =>
      have hid : id ∉ f.models.map Prod.fst :=
        hfresh (id, series) (List.mem_cons_self _ _)
      have hstep : (dictSet f.models id m).map Prod.fst
          = f.models.map Prod.fst ++ [id] := map_fst_dictSet_notMem m hid
      have hfresh' : ∀ p ∈ rest, p.1 ∉ (dictSet f.models id m).map Prod.fst := by
        intro p hp
        rw [hstep]
        simp only [List.mem_append, List.mem_singleton]
        push_neg
        refine ⟨hfresh p (List.mem_cons_of_mem _ hp), ?_⟩
        intro hpe
        exact hnd.1 (hpe ▸ List.mem_map_of_mem Prod.fst hp)
      have ih := fitLoop_ok_models sch covs rest
        { f1 with models := dictSet f1.models id m } f' hnd.2 (by subst hf1; exact hfresh') (by subst hf1; exact h)
      subst hf1
      rw [ih, hstep]
      simp

theorem fitLoop_ok_end_keys (sch : ForecastingSchema) (covs : List String) :
    ∀ (l : List (Value × DataFrame)) (f : Forecaster) (f' : Forecaster),
      (l.map Prod.fst).Nodup →
      (∀ p ∈ l, p.1 ∉ f.end_index.map Prod.fst) →
      fitLoop f sch covs l = (f', none) →
      f'.end_index.map Prod.fst = f.end_index.map Prod.fst ++ l.map Prod.fst
  | [], f, f', _, _, h => by
    have : f = f' := congrArg Prod.fst h
    simp [← this]
  | (id, series) :: rest, f, f', hnd, hfresh, h => by
    simp only [List.map_cons, List.nodup_cons] at hnd
    rw [fitLoop] at h
    rcases hout : f.fitOnSeries (truncSeries f.history_length series) sch id covs
      with ⟨f1, r⟩
    have hf1 : f1 = { f with end_index := dictSet f.end_index id ((truncSeries f.history_length series).setRangeIndex 0).nrows } := by
      have := congrArg Prod.fst hout
      simpa [Forecaster.fitOnSeries] using this.symm
    rw [hout] at h
    cases r with
    | error e => exact absurd (congrArg Prod.snd h) (by simp)
    | ok m =>
      have hid : id ∉ f.end_index.map Prod.fst :=
        hfresh (id, series) (List.mem_cons_self _ _)
      have hstep : (dictSet f.end_index id ((truncSeries f.history_length series).setRangeIndex 0).nrows).map Prod.fst
          = f.end_index.map Prod.fst ++ [id] := map_fst_dictSet_notMem _ hid
      have hfresh' : ∀ p ∈ rest, p.1 ∉ (dictSet f.end_index id ((truncSeries f.history_length series).setRangeIndex 0).nrows).map Prod.fst := by
        intro p hp
        rw [hstep]
        simp only [List.mem_append, List.mem_singleton]
        push_neg
        refine ⟨hfresh p (List.mem_cons_of_mem _ hp), ?_⟩
        intro hpe
        exact hnd.1 (hpe ▸ List.mem_map_of_mem Prod.fst hp)
      have ih := fitLoop_ok_end_keys sch covs rest
        { f1 with models := dictSet f1.models id m } f' hnd.2 (by subst hf1; exact hfresh') (by subst hf1; exact h)
      subst hf1
      rw [ih, hstep]
      simp

theorem fitLoop_ok_lookup (sch : ForecastingSchema) (covs : List String) :
    ∀ (l : List (Value × DataFrame)) (f : Forecaster) (f' : Forecaster),
      (l.map Prod.fst).Nodup →
      fitLoop f sch covs l = (f', none) →
      ∀ p ∈ l, dictGet f'.models p.1 =
        some ⟨f.lags,
          ((truncSeries f.history_length p.2).setRangeIndex 0).colValues sch.target,
          mkExog covs f.use_exogenous ((truncSeries f.history_length p.2).setRangeIndex 0)⟩
  | [], _, _, _, _ => by
    intro p hp
    exact absurd hp (List.not_mem_nil p)
  | (id, series) :: rest, f, f', hnd, h => by
    simp only [List.map_cons, List.nodup_cons] at hnd
    rw [fitLoop] at h
    rcases hout : f.fitOnSeries (truncSeries f.history_length series) sch id covs
      with ⟨f1, r⟩
    have hf1 : f1 = { f with end_index := dictSet f.end_index id ((truncSeries f.history_length series).setRangeIndex 0).nrows } := by
      have := congrArg Prod.fst hout
      simpa [Forecaster.fitOnSeries] using this.symm
    rw [hout] at h
    cases r with
    | error e => exact absurd (congrArg Prod.snd h) (by simp)
    | ok m =>
      have hm : m = ⟨f.lags,
          ((truncSeries f.history_length series).setRangeIndex 0).colValues sch.target,
          mkExog covs f.use_exogenous ((truncSeries f.history_length series).setRangeIndex 0)⟩ := by
        have h2 := congrArg Prod.snd hout
        rw [fitOnSeries_result] at h2
        exact skFit_ok h2
      intro p hp
      rcases List.mem_cons.mp hp with hph | hpr
      · subst hph
        have hpres := fitLoop_models_lookup_preserved sch covs rest
          { f1 with models := dictSet f1.models id m } id hnd.1
        rw [(by subst hf1; exact h : fitLoop { f1 with models := dictSet f1.models id m } sch covs rest = (f', none))] at hpres
        subst hf1
        rw [hpres]
        simp only [dictGet_dictSet_self]
        rw [hm]
      · have ih := fitLoop_ok_lookup sch covs rest
          { f1 with models := dictSet f1.models id m } f' hnd.2 (by subst hf1; exact h) p hpr
        subst hf1
        exact ih

theorem fitLoop_ok_end (sch : ForecastingSchema) (covs : List String) :
    ∀ (l : List (Value × DataFrame)) (f : Forecaster) (f' : Forecaster),
      (l.map Prod.fst).Nodup →
      fitLoop f sch covs l = (f', none) →
      ∀ p ∈ l, dictGet f'.end_index p.1 =
        some ((truncSeries f.history_length p.2).nrows)
  | [], _, _, _, _ => by
    intro p hp
    exact absurd hp (List.not_mem_nil p)
  | (id, series) :: rest, f, f', hnd, h => by
    simp only [List.map_cons, List.nodup_cons] at hnd
    rw [fitLoop] at h
    rcases hout : f.fitOnSeries (truncSeries f.history_length series) sch id covs
      with ⟨f1, r⟩
    have hf1 : f1 = { f with end_index := dictSet f.end_index id ((truncSeries f.history_length series).setRangeIndex 0).nrows } := by
      have := congrArg Prod.fst hout
      simpa [Forecaster.fitOnSeries] using this.symm
    rw [hout] at h
    cases r with
    | error e => exact absurd (congrArg Prod.snd h) (by simp)
    | ok m =>
      intro p hp
      rcases List.mem_cons.mp hp with hph | hpr
      · subst hph
        have hpres := fitLoop_end_lookup_preserved sch covs rest
          { f1 with models := dictSet f1.models id m } id hnd.1
        rw [(by subst hf1; exact h : fitLoop { f1 with models := dictSet f1.models id m } sch covs rest = (f', none))] at hpres
        subst hf1
        rw [hpres]
        simp only [dictGet_dictSet_self]
        rw [nrows_setRangeIndex]
      · have ih := fitLoop_ok_end sch covs rest
          { f1 with models := dictSet f1.models id m } f' hnd.2 (by subst hf1; exact h) p hpr
        subst hf1
        exact ih

theorem fitLoop_err (sch : ForecastingSchema) (covs : List String) :
    ∀ (l : List (Value × DataFrame)) (f : Forecaster) (f' : Forecaster) (e : String),
      (l.map Prod.fst).Nodup →
      (∀ p ∈ l, p.1 ∉ f.models.map Prod.fst) →
      fitLoop f sch covs l = (f', some e) →
      ∃ k, k < l.length ∧
        f'.models.map Prod.fst = f.models.map Prod.fst ++ (l.map Prod.fst).take k
  | [], _, _, _, _, _, h => by
    rw [fitLoop] at h
    exact absurd (congrArg Prod.snd h) (by simp)
  | (id, series) :: rest, f, f', e, hnd, hfresh, h => by
    simp only [List.map_cons, List.nodup_cons] at hnd
    rw [fitLoop] at h
    rcases hout : f.fitOnSeries (truncSeries f.history_length series) sch id covs
      with ⟨f1, r⟩
    have hf1 : f1 = { f with end_index := dictSet f.end_index id ((truncSeries f.history_length series).setRangeIndex 0).nrows } := by
      have := congrArg Prod.fst hout
      simpa [Forecaster.fitOnSeries] using this.symm
    rw [hout] at h
    cases r with
    | error e' =>
      refine ⟨0, by simp, ?_⟩
      have hff : f1 = f' := congrArg Prod.fst h
      subst hf1
      simp [← hff]
    | ok m =>
      have hid : id ∉ f.models.map Prod.fst :=
        hfresh (id, series) (List.mem_cons_self _ _)
      have hstep : (dictSet f.models id m).map Prod.fst
          = f.models.map Prod.fst ++ [id] := map_fst_dictSet_notMem m hid
      have hfresh' : ∀ p ∈ rest, p.1 ∉ (dictSet f.models id m).map Prod.fst := by
        intro p hp
        rw [hstep]
        simp only [List.mem_append, List.mem_singleton]
        push_neg
        refine ⟨hfresh p (List.mem_cons_of_mem _ hp), ?_⟩
        intro hpe
        exact hnd.1 (hpe ▸ List.mem_map_of_mem Prod.fst hp)
      obtain ⟨k, hk, hkeys⟩ := fitLoop_err sch covs rest
        { f1 with models := dictSet f1.models id m } f' e hnd.2 (by subst hf1; exact hfresh') (by subst hf1; exact h)
      refine ⟨k + 1, by simpa using hk, ?_⟩
      subst hf1
      rw [hkeys, hstep]
      simp [List.take_cons]

theorem fitLoop_models_sub_end (sch : ForecastingSchema) (covs : List String) :
    ∀ (l : List (Value × DataFrame)) (f : Forecaster),
      (∀ k, (dictGet f.models k).isSome → (dictGet f.end_index k).isSome) →
      ∀ k, (dictGet (fitLoop f sch covs l).1.models k).isSome →
        (dictGet (fitLoop f sch covs l).1.end_index k).isSome
  | [], _ => fun hsub => hsub
  | (id, series) :: rest, f => by
    intro hsub
    rw [fitLoop]
    rcases hout : f.fitOnSeries (truncSeries f.history_length series) sch id covs
      with ⟨f1, r⟩
    have hf1 : f1 = { f with end_index := dictSet f.end_index id ((truncSeries f.history_length series).setRangeIndex 0).nrows } := by
      have := congrArg Prod.fst hout
      simpa [Forecaster.fitOnSeries] using this.symm
    cases r with
    | error e =>
      subst hf1
      intro k hk
      exact dictGet_isSome_dictSet _ _ _ _ (hsub k hk)
    | ok m =>
      have ih := fitLoop_models_sub_end sch covs rest
        { f1 with models := dictSet f1.models id m }
      subst hf1
      refine ih ?_
      intro k hk
      by_cases hke : k = id
      · subst hke
        simp [dictGet_dictSet_self]
      · rw [dictGet_dictSet_ne _ _ hke] at hk
        exact dictGet_isSome_dictSet _ _ _ _ (hsub k hk)

/-! ## Covariate-derivation lemmas -/

theorem addFuture_true_snd {schema : ForecastingSchema} (history : DataFrame)
    (h : isDateLike schema = true) :
    (addFutureCovariatesFromDate history schema true).2 =
      (schema.future_covariates ++ [yearName schema, monthName schema],
       { schema with future_covariates :=
          schema.future_covariates ++ [yearName schema, monthName schema] }) := by
  simp [addFutureCovariatesFromDate, h]

theorem addFuture_false_snd (history : DataFrame) (schema : ForecastingSchema) :
    (addFutureCovariatesFromDate history schema false).2 =
      (schema.future_covariates, schema) := by
  unfold addFutureCovariatesFromDate
  split <;> rfl

theorem addFuture_notDate {schema : ForecastingSchema} (history : DataFrame)
    (h : isDateLike schema = false) (t : Bool) :
    addFutureCovariatesFromDate history schema t =
      (history, schema.future_covariates, schema) := by
  simp [addFutureCovariatesFromDate, h]

theorem addFuture_fst_eq {schema : ForecastingSchema} (history : DataFrame) (t : Bool)
    (h : isDateLike schema = true) :
    (addFutureCovariatesFromDate history schema t).1 =
      (history.setColBy (yearName schema)
        (fun r => .int (((rowGet r schema.time_col).getD (.int 0)).toYear))).setColBy
        (monthName schema)
        (fun r => .int (((rowGet r schema.time_col).getD (.int 0)).toMonth)) := by
  unfold addFutureCovariatesFromDate
  rw [h]
  cases t <;> rfl

theorem rows_proj_setColBy_ne (df : DataFrame) {cc : String} (f : Row → Value)
    {c : String} (h : c ≠ cc) :
    (df.setColBy cc f).rows.map (fun r => rowGet r c) =
      df.rows.map (fun r => rowGet r c) := by
  rw [rows_setColBy, List.map_map]
  exact List.map_congr_left (fun r _ => rowGet_rowSet_ne r _ h)

theorem rows_proj_addFuture (history : DataFrame) (schema : ForecastingSchema)
    (t : Bool) {c : String} (hy : c ≠ yearName schema) (hm : c ≠ monthName schema) :
    (addFutureCovariatesFromDate history schema t).1.rows.map (fun r => rowGet r c) =
      history.rows.map (fun r => rowGet r c) := by
  cases hd : isDateLike schema with
  | false => rw [addFuture_notDate history hd]
  | true =>
    rw [addFuture_fst_eq history t hd, rows_proj_setColBy_ne _ _ hm,
      rows_proj_setColBy_ne _ _ hy]

theorem filterMap_eq_of_map_eq {α β : Type} {f : α → Option β} {l l' : List α}
    (h : l.map f = l'.map f) : l.filterMap f = l'.filterMap f := by
  induction l generalizing l' with
  | nil =>
    cases l' with
    | nil => rfl
    | cons b l' => simp at h
  | cons a l ih =>
    cases l' with
    | nil => simp at h
    | cons b l' =>
      simp only [List.map_cons, List.cons.injEq] at h
      simp [List.filterMap_cons, h.1, ih h.2]

theorem colValues_addFuture (history : DataFrame) (schema : ForecastingSchema)
    (t : Bool) {c : String} (hy : c ≠ yearName schema) (hm : c ≠ monthName schema) :
    (addFutureCovariatesFromDate history schema t).1.colValues c =
      history.colValues c := by
  unfold DataFrame.colValues
  exact filterMap_eq_of_map_eq (rows_proj_addFuture history schema t hy hm)

theorem countId_eq_countP (df : DataFrame) (c : String) (v : Value) :
    countId df c v = df.rows.countP (fun r => rowGet r c == some v) := by
  rw [countId, List.countP_eq_length_filter]

theorem countId_addFuture (history : DataFrame) (schema : ForecastingSchema)
    (t : Bool) {c : String} (v : Value)
    (hy : c ≠ yearName schema) (hm : c ≠ monthName schema) :
    countId (addFutureCovariatesFromDate history schema t).1 c v =
      countId history c v := by
  rw [countId_eq_countP, countId_eq_countP]
  have hp := rows_proj_addFuture history schema t hy hm
  have h1 : (addFutureCovariatesFromDate history schema t).1.rows.countP
      (fun r => rowGet r c == some v) =
      ((addFutureCovariatesFromDate history schema t).1.rows.map
        (fun r => rowGet r c)).countP (fun o => o == some v) := by
    rw [List.countP_map]
    rfl
  have h2 : history.rows.countP (fun r => rowGet r c == some v) =
      (history.rows.map (fun r => rowGet r c)).countP (fun o => o == some v) := by
    rw [List.countP_map]
    rfl
  rw [h1, h2, hp]

theorem nrows_addFuture (history : DataFrame) (schema : ForecastingSchema) (t : Bool) :
    (addFutureCovariatesFromDate history schema t).1.nrows = history.nrows := by
  cases hd : isDateLike schema with
  | false => rw [addFuture_notDate history hd]
  | true => rw [addFuture_fst_eq history t hd, nrows_setColBy, nrows_setColBy]

theorem mem_rows_addFuture_date {history : DataFrame} {schema : ForecastingSchema}
    {t : Bool} (hd : isDateLike schema = true)
    (hne : yearName schema ≠ monthName schema) :
    ∀ r ∈ (addFutureCovariatesFromDate history schema t).1.rows,
      (∃ n : Int, rowGet r (yearName schema) = some (.int n)) ∧
      (∃ n : Int, rowGet r (monthName schema) = some (.int n)) := by
  intro r hr
  rw [addFuture_fst_eq history t hd, rows_setColBy, rows_setColBy, List.map_map] at hr
  obtain ⟨r0, _, hr0⟩ := List.mem_map.mp hr
  simp only [Function.comp] at hr0
  subst hr0
  constructor
  · exact ⟨_, by rw [rowGet_rowSet_ne _ _ hne, rowGet_rowSet_self]⟩
  · exact ⟨_, by rw [rowGet_rowSet_self]⟩

/-! ## Fit-level packaging -/

/-- The sorted group keys that `fit` iterates (the recorded id order). -/
def fitKeys (history : DataFrame) (schema : ForecastingSchema) : List Value :=
  groupKeys (addFutureCovariatesFromDate history schema true).1 schema.id_col

/-- The per-id series that `fit` builds: the id's group of the derived
history, with the id column dropped. -/
def fitSeriesOf (history : DataFrame) (schema : ForecastingSchema) (id : Value) :
    DataFrame :=
  ((addFutureCovariatesFromDate history schema true).1.getGroup schema.id_col
    id).dropCol schema.id_col

theorem zip_map_self {α β : Type} (l : List α) (g : α → β) :
    l.zip (l.map g) = l.map (fun a => (a, g a)) := by
  induction l with
  | nil => rfl
  | cons a l ih => simp [ih]

/-- `Forecaster.fit` unfolded to a case split on the per-series loop. -/
theorem fit_eq (f : Forecaster) (history : DataFrame) (schema : ForecastingSchema) :
    f.fit history schema =
      match fitLoop { f with models := [] } schema
          (addFutureCovariatesFromDate history schema true).2.1
          ((fitKeys history schema).zip
            ((fitKeys history schema).map (fitSeriesOf history schema))) with
      | (f1, some e) =>
        { state := f1, err := some e,
          callerHistory := (addFutureCovariatesFromDate history schema true).1,
          callerSchema := (addFutureCovariatesFromDate history schema true).2.2 }
      | (f1, none) =>
        { state := { f1 with all_ids := fitKeys history schema, is_trained := true, data_schema := (addFutureCovariatesFromDate history schema true).2.2 },
          err := none,
          callerHistory := (addFutureCovariatesFromDate history schema true).1,
          callerSchema := (addFutureCovariatesFromDate history schema true).2.2 } := rfl

theorem fit_callerSchema (f : Forecaster) (history : DataFrame)
    (schema : ForecastingSchema) :
    (f.fit history schema).callerSchema =
      (addFutureCovariatesFromDate history schema true).2.2 := by
  rw [fit_eq]
  rcases hloop : fitLoop { f with models := [] } schema
    (addFutureCovariatesFromDate history schema true).2.1
    ((fitKeys history schema).zip
      ((fitKeys history schema).map (fitSeriesOf history schema))) with ⟨f1, r⟩
  cases r <;> rfl

theorem fit_callerHistory (f : Forecaster) (history : DataFrame)
    (schema : ForecastingSchema) :
    (f.fit history schema).callerHistory =
      (addFutureCovariatesFromDate history schema true).1 := by
  rw [fit_eq]
  rcases hloop : fitLoop { f with models := [] } schema
    (addFutureCovariatesFromDate history schema true).2.1
    ((fitKeys history schema).zip
      ((fitKeys history schema).map (fitSeriesOf history schema))) with ⟨f1, r⟩
  cases r <;> rfl

theorem fit_ok_loop {f : Forecaster} {history : DataFrame}
    {schema : ForecastingSchema}
    (hok : (f.fit history schema).err = none) :
    ∃ f1, fitLoop { f with models := [] } schema
        (addFutureCovariatesFromDate history schema true).2.1
        ((fitKeys history schema).zip
          ((fitKeys history schema).map (fitSeriesOf history schema))) = (f1, none) ∧
      (f.fit history schema).state =
        { f1 with all_ids := fitKeys history schema, is_trained := true, data_schema := (addFutureCovariatesFromDate history schema true).2.2 } := by
  rw [fit_eq] at hok ⊢
  rcases hloop : fitLoop { f with models := [] } schema
    (addFutureCovariatesFromDate history schema true).2.1
    ((fitKeys history schema).zip
      ((fitKeys history schema).map (fitSeriesOf history schema))) with ⟨f1, r⟩
  cases r with
  | some e =>
    rw [hloop] at hok
    simp at hok
  | none => exact ⟨f1, rfl, rfl⟩

theorem fit_err_loop {f : Forecaster} {history : DataFrame}
    {schema : ForecastingSchema} {e : String}
    (herr : (f.fit history schema).err = some e) :
    ∃ f1, fitLoop { f with models := [] } schema
        (addFutureCovariatesFromDate history schema true).2.1
        ((fitKeys history schema).zip
          ((fitKeys history schema).map (fitSeriesOf history schema))) = (f1, some e) ∧
      (f.fit history schema).state = f1 := by
  rw [fit_eq] at herr ⊢
  rcases hloop : fitLoop { f with models := [] } schema
    (addFutureCovariatesFromDate history schema true).2.1
    ((fitKeys history schema).zip
      ((fitKeys history schema).map (fitSeriesOf history schema))) with ⟨f1, r⟩
  cases r with
  | some e2 =>
    rw [hloop] at herr
    have he : e2 = e := by simpa using herr
    subst he
    exact ⟨f1, rfl, rfl⟩
  | none =>
    rw [hloop] at herr
    simp at herr

/-! ## Predict-level packaging -/

/-- The test frame after prediction-mode calendar derivation (the contents
of the caller's `test_data` object once `predict` has passed the initial
trained check). -/
def predictTest (f : Forecaster) (test_data : DataFrame) : DataFrame :=
  (addFutureCovariatesFromDate test_data f.data_schema false).1

/-- The covariate-name list `predict` resolves (prediction mode: the
schema's stored list, unchanged). -/
def predictCovs (f : Forecaster) (test_data : DataFrame) : List String :=
  (addFutureCovariatesFromDate test_data f.data_schema false).2.1

/-- The per-id forward frame `predict` builds for a recorded id. -/
def predictSeriesOf (f : Forecaster) (test_data : DataFrame) (id : Value) :
    DataFrame :=
  ((predictTest f test_data).getGroup f.data_schema.id_col id).dropCol
    f.data_schema.id_col

theorem predict_not_trained {f : Forecaster} (test_data : DataFrame) (pcol : String)
    (h : f.is_trained = false) :
    f.predict test_data pcol =
      { result := .error "NotFittedError: Model is not fitted yet."
        state := f, callerTestData := test_data } := by
  simp [Forecaster.predict, h]

theorem predict_eq_trained {f : Forecaster} (test_data : DataFrame) (pcol : String)
    (h : f.is_trained = true) :
    f.predict test_data pcol =
      (if f.all_ids.any (fun id =>
          ((predictTest f test_data).getGroup f.data_schema.id_col id).nrows == 0) then
        { result := .error "KeyError: get_group", state := f,
          callerTestData := predictTest f test_data }
      else
        match predictLoop f (predictCovs f test_data)
            (f.all_ids.zip (f.all_ids.map (predictSeriesOf f test_data))) with
        | .error e =>
          { result := .error e, state := f, callerTestData := predictTest f test_data }
        | .ok frames =>
          { result := .ok ((concatIgnoreIndex frames).renameCol f.data_schema.target pcol),
            state := f, callerTestData := predictTest f test_data }) := by
  simp only [Forecaster.predict, h]
  rfl

theorem predict_state (f : Forecaster) (test_data : DataFrame) (pcol : String) :
    (f.predict test_data pcol).state = f := by
  by_cases h : f.is_trained
  · rw [predict_eq_trained test_data pcol h]
    split
    · rfl
    · rcases predictLoop f (predictCovs f test_data)
        (f.all_ids.zip (f.all_ids.map (predictSeriesOf f test_data))) with e | frames
      · rfl
      · rfl
  · rw [predict_not_trained test_data pcol (by simpa using h)]

/-- The length contract of the external forecaster. -/
theorem predictSteps_length (m : SkModel) (steps : Nat) (exog : Option DataFrame) :
    (m.predictSteps steps exog).length = steps := by
  simp [SkModel.predictSteps]

theorem predictOnSeries_ok_some_spec {f : Forecaster} {df : DataFrame} {id : Value}
    {covs : List String} {out : DataFrame}
    (h : f.predictOnSeries df id covs = .ok (some out)) :
    ∃ start m, dictGet f.end_index id = some start ∧ dictGet f.models id = some m ∧
      out.nrows = df.nrows ∧ out.index = List.range' start df.nrows ∧
      out.rows = ((df.setRangeIndex start).rows.zip
          (m.predictSteps df.nrows (mkExog covs f.use_exogenous (df.setRangeIndex start)))).map
        (fun p => rowSet p.1 f.data_schema.target p.2) ∧
      (∀ r ∈ out.rows, (rowGet r f.data_schema.target).isSome) := by
  unfold Forecaster.predictOnSeries at h
  rcases h1 : dictGet f.end_index id with _ | start
  · rw [h1] at h
    exact absurd h (by simp)
  · rw [h1] at h
    rcases h2 : dictGet f.models id with _ | m
    · rw [h2] at h
      simp at h
    · rw [h2] at h
      simp only [Except.ok.injEq, Option.some.injEq] at h
      have hlen : (m.predictSteps (df.setRangeIndex start).nrows
          (mkExog covs f.use_exogenous (df.setRangeIndex start))).length
          = (df.setRangeIndex start).nrows := predictSteps_length _ _ _
      refine ⟨start, m, rfl, rfl, ?_, ?_, ?_, ?_⟩
      · rw [← h, nrows_setColVals _ _ hlen, nrows_setRangeIndex]
      · rw [← h, index_setColVals _ _ hlen, index_setRangeIndex]
      · rw [← h]
        rw [nrows_setRangeIndex]
        simp only [DataFrame.setColVals, DataFrame.rows, List.map_map, List.zip_map_left]
        apply List.map_congr_left
        intro p _
        rcases p with ⟨⟨i, r⟩, v⟩
        rfl
      · intro r hr
        rw [← h] at hr
        exact mem_rows_setColVals hr

theorem predictOnSeries_ne_ok_none {f : Forecaster} {df : DataFrame} {id : Value}
    {covs : List String} (h : (dictGet f.models id).isSome) :
    f.predictOnSeries df id covs ≠ .ok none := by
  unfold Forecaster.predictOnSeries
  rcases h1 : dictGet f.end_index id with _ | start
  · simp
  · rcases h2 : dictGet f.models id with _ | m
    · rw [h2] at h
      simp at h
    · simp

theorem predictLoop_ok_proj {f : Forecaster} {covs : List String} (pcol : String)
    (hne : f.data_schema.id_col ≠ f.data_schema.target) :
    ∀ (l : List (Value × DataFrame)) (frames : List DataFrame),
      predictLoop f covs l = .ok frames →
      (frames.map DataFrame.rows).flatten.map
        (fun r => rowGet (rowRename f.data_schema.target pcol r) f.data_schema.id_col) =
      (l.map (fun p => List.replicate p.2.nrows (some p.1))).flatten
  | [], frames, h => by
    rw [predictLoop] at h
    have : frames = [] := by simpa using h.symm
    subst this
    rfl
  | (id, series) :: rest, frames, h => by
    rw [predictLoop] at h
    rcases hps : f.predictOnSeries series id covs with e | o
    · rw [hps] at h
      simp at h
    · rcases o with _ | df
      · rw [hps] at h
        simp at h
      · rw [hps] at h
        rcases hrest : predictLoop f covs rest with e | frames'
        · rw [hrest] at h
          simp at h
        · rw [hrest] at h
          simp only [Except.ok.injEq] at h
          subst h
          obtain ⟨start, m, _, _, hnr, _, _, _⟩ := predictOnSeries_ok_some_spec hps
          simp only [List.map_cons, List.flatten_cons, List.map_append]
          rw [predictLoop_ok_proj pcol hne rest frames' hrest]
          congr 1
          rw [rows_insertCol0, List.map_map]
          have hmap : ∀ r ∈ df.rows,
              ((fun r => rowGet (rowRename f.data_schema.target pcol r) f.data_schema.id_col) ∘
                (fun r => (f.data_schema.id_col, id) :: r)) r = some id := by
            intro r _
            simp only [Function.comp]
            rw [rowRename_cons_ne _ _ _ hne, rowGet_cons]
          rw [List.map_congr_left hmap]
          have hlen : df.rows.length = series.nrows := by
            have : df.rows.length = df.nrows := by
              simp [DataFrame.rows, DataFrame.nrows]
            rw [this, hnr]
          rw [← hlen, ← List.map_const]
          rfl

theorem predictLoop_ok_target {f : Forecaster} {covs : List String}
    (hne : f.data_schema.id_col ≠ f.data_schema.target) :
    ∀ (l : List (Value × DataFrame)) (frames : List DataFrame),
      predictLoop f covs l = .ok frames →
      ∀ fr ∈ frames, ∀ r ∈ fr.rows, (rowGet r f.data_schema.target).isSome
  | [], frames, h => by
    rw [predictLoop] at h
    have : frames = [] := by simpa using h.symm
    subst this
    intro fr hfr
    exact absurd hfr (List.not_mem_nil fr)
  | (id, series) :: rest, frames, h => by
    rw [predictLoop] at h
    rcases hps : f.predictOnSeries series id covs with e | o
    · rw [hps] at h
      simp at h
    · rcases o with _ | df
      · rw [hps] at h
        simp at h
      · rw [hps] at h
        rcases hrest : predictLoop f covs rest with e | frames'
        · rw [hrest] at h
          simp at h
        · rw [hrest] at h
          simp only [Except.ok.injEq] at h
          subst h
          intro fr hfr r hr
          rcases List.mem_cons.mp hfr with hfr0 | hfr'
          · subst hfr0
            rw [rows_insertCol0] at hr
            obtain ⟨r0, hr0mem, hr0⟩ := List.mem_map.mp hr
            obtain ⟨_, _, _, _, _, _, _, htgt⟩ := predictOnSeries_ok_some_spec hps
            subst hr0
            rw [rowGet] ; rw [if_neg hne]
            exact htgt r0 hr0mem
          · exact predictLoop_ok_target hne rest frames' hrest fr hfr' r hr

/-! ## Counting and concatenation lemmas -/

theorem rows_concat (dfs : List DataFrame) :
    (concatIgnoreIndex dfs).rows = (dfs.map DataFrame.rows).flatten := by
  simp [concatIgnoreIndex, DataFrame.rows, List.enum_map_snd]

theorem index_concat (dfs : List DataFrame) :
    (concatIgnoreIndex dfs).index =
      List.range (dfs.map DataFrame.rows).flatten.length := by
  simp [concatIgnoreIndex, DataFrame.index, List.enum_map_fst]

theorem index_renameCol (df : DataFrame) (old new : String) :
    (df.renameCol old new).index = df.index := by
  simp [DataFrame.renameCol, DataFrame.index]

theorem nrows_renameCol (df : DataFrame) (old new : String) :
    (df.renameCol old new).nrows = df.nrows := by
  simp [DataFrame.renameCol, DataFrame.nrows]

theorem length_rows (df : DataFrame) : df.rows.length = df.nrows := by
  simp [DataFrame.rows, DataFrame.nrows]

theorem countId_eq_count_proj (df : DataFrame) (c : String) (v : Value) :
    countId df c v = (df.rows.map (fun r => rowGet r c)).count (some v) := by
  rw [countId_eq_countP, List.count_eq_countP, List.countP_map]
  rfl

theorem count_flatten_replicate (ids : List Value) (cnt : Value → Nat)
    (hnd : ids.Nodup) (id : Value) (hid : id ∈ ids) :
    ((ids.map (fun i => List.replicate (cnt i) (some i : Option Value))).flatten).count
      (some id) = cnt id := by
  induction ids with
  | nil => exact absurd hid (List.not_mem_nil id)
  | cons a ids ih =>
    simp only [List.nodup_cons] at hnd
    rw [List.map_cons, List.flatten_cons, List.count_append]
    rcases List.mem_cons.mp hid with hia | hia
    · subst hia
      have h0 : ((ids.map (fun i => List.replicate (cnt i) (some i : Option Value))).flatten).count
          (some id) = 0 := by
        rw [List.count_eq_zero]
        intro hmem
        obtain ⟨blk, hblk, hmem2⟩ := List.mem_flatten.mp hmem
        obtain ⟨i, hi, hbe⟩ := List.mem_map.mp hblk
        rw [← hbe] at hmem2
        obtain ⟨_, heq⟩ := List.mem_replicate.mp hmem2
        exact hnd.1 ((Option.some.injEq _ _ ▸ heq) ▸ hi)
      rw [h0, List.count_replicate]
      simp
    · have ha : a ≠ id := fun hc => hnd.1 (hc ▸ hia)
      rw [ih hnd.2 hia, List.count_replicate]
      simp [ha]

/-! ## Filter-commutation lemmas (for unseen-id frame equivalence) -/

theorem getGroup_filter_ne (df : DataFrame) {c : String} {u v : Value} (h : v ≠ u) :
    (df.filterRows (fun r => rowGet r c != some u)).getGroup c v = df.getGroup c v := by
  unfold DataFrame.getGroup DataFrame.filterRows
  rw [List.filter_filter]
  congr 1
  apply List.filter_congr
  intro e _
  by_cases hp : rowGet e.2 c == some v
  · have : rowGet e.2 c = some v := by simpa using hp
    simp [hp, this, h]
  · simp [hp]

theorem setColBy_filterRows_comm (df : DataFrame) (c : String) (g : Row → Value)
    (p : Row → Bool) (h : ∀ r v, p (rowSet r c v) = p r) :
    (df.setColBy c g).filterRows p = (df.filterRows p).setColBy c g := by
  unfold DataFrame.setColBy DataFrame.filterRows
  rw [List.filter_map]
  congr 1
  refine congrArg (List.map _) ?_
  apply List.filter_congr
  intro e _
  exact h e.2 (g e.2)

theorem addFuture_filterRows_id (history : DataFrame) (schema : ForecastingSchema)
    (t : Bool) (u : Value)
    (hy : schema.id_col ≠ yearName schema) (hm : schema.id_col ≠ monthName schema) :
    (addFutureCovariatesFromDate
        (history.filterRows (fun r => rowGet r schema.id_col != some u)) schema t).1 =
      (addFutureCovariatesFromDate history schema t).1.filterRows
        (fun r => rowGet r schema.id_col != some u) := by
  cases hd : isDateLike schema with
  | false => rw [addFuture_notDate _ hd, addFuture_notDate _ hd]
  | true =>
    rw [addFuture_fst_eq _ t hd, addFuture_fst_eq _ t hd]
    rw [setColBy_filterRows_comm _ _ _ _
      (fun r v => by rw [rowGet_rowSet_ne r v hm])]
    rw [setColBy_filterRows_comm _ _ _ _
      (fun r v => by rw [rowGet_rowSet_ne r v hy])]

/-! ## Row-membership preservation -/

theorem mem_rows_takeLast {df : DataFrame} {n : Nat} {r : Row}
    (h : r ∈ (df.takeLast n).rows) : r ∈ df.rows := by
  simp only [DataFrame.takeLast, DataFrame.rows] at h ⊢
  obtain ⟨e, he, hr⟩ := List.mem_map.mp h
  exact hr ▸ List.mem_map_of_mem _ (List.mem_of_mem_drop he)

theorem mem_rows_getGroup {df : DataFrame} {c : String} {v : Value} {r : Row}
    (h : r ∈ (df.getGroup c v).rows) : r ∈ df.rows := by
  rw [rows_getGroup] at h
  exact (List.mem_filter.mp h).1

theorem mem_rows_dropCol {df : DataFrame} {c : String} {r : Row}
    (h : r ∈ (df.dropCol c).rows) : ∃ r0 ∈ df.rows, r = rowDropCol r0 c := by
  rw [rows_dropCol] at h
  obtain ⟨r0, h0, hr⟩ := List.mem_map.mp h
  exact ⟨r0, h0, hr.symm⟩

theorem mem_rows_select {df : DataFrame} {cs : List String} {r : Row}
    (h : r ∈ (df.select cs).rows) : ∃ r0 ∈ df.rows, r = rowSelect r0 cs := by
  simp only [DataFrame.select, DataFrame.rows, List.map_map] at h
  obtain ⟨e, he, hr⟩ := List.mem_map.mp h
  exact ⟨e.2, List.mem_map_of_mem _ he, hr.symm⟩

theorem rowGet_rowSelect_isSome {r : Row} {c : String} :
    ∀ {cs : List String}, c ∈ cs → (rowGet r c).isSome →
      (rowGet (rowSelect r cs) c).isSome := by
  intro cs
  induction cs with
  | nil => intro h; exact absurd h (List.not_mem_nil c)
  | cons c' cs ih =>
    intro hc hr
    unfold rowSelect
    rw [List.filterMap_cons]
    by_cases hcc : c' = c
    · subst hcc
      rcases hv : rowGet r c' with _ | v
      · rw [hv] at hr
        simp at hr
      · show (rowGet ((c', v) :: rowSelect r cs) c').isSome
        rw [rowGet_cons]
        rfl
    · rcases List.mem_cons.mp hc with hc0 | hcs
      · exact absurd hc0.symm hcc
      · rcases hv : rowGet r c' with _ | v
        · exact ih hcs hr
        · show (rowGet ((c', v) :: rowSelect r cs) c).isSome
          rw [rowGet, if_neg hcc]
          exact ih hcs hr

/-! ## Effective training length -/

/-- The number of rows actually used for a series: the full count, unless a
positive `history_length` truncates to the most recent rows. -/
def effLen (hl : Option Nat) (n : Nat) : Nat :=
  match hl with
  | some k => if k = 0 then n else min k n
  | none => n

theorem nrows_takeLast (df : DataFrame) (n : Nat) :
    (df.takeLast n).nrows = df.nrows - (df.nrows - n) := by
  simp [DataFrame.takeLast, DataFrame.nrows]

theorem nrows_truncSeries (hl : Option Nat) (df : DataFrame) :
    (truncSeries hl df).nrows = effLen hl df.nrows := by
  cases hl with
  | none => rfl
  | some k =>
    unfold truncSeries effLen
    by_cases hk : k = 0
    · simp [hk]
    · simp only [hk, if_false]
      rw [nrows_takeLast]
      omega

/-! ## Further helpers for the claim theorems -/

theorem rowGet_rowSelect_eq {r : Row} {c : String} :
    ∀ {cs : List String}, c ∈ cs → (rowGet r c).isSome →
      rowGet (rowSelect r cs) c = rowGet r c := by
  intro cs
  induction cs with
  | nil => intro h; exact absurd h (List.not_mem_nil c)
  | cons c' cs ih =>
    intro hc hr
    unfold rowSelect
    rw [List.filterMap_cons]
    by_cases hcc : c' = c
    · subst hcc
      rcases hv : rowGet r c' with _ | v
      · rw [hv] at hr
        simp at hr
      · show rowGet ((c', v) :: rowSelect r cs) c' = some v
        rw [rowGet_cons]
    · rcases List.mem_cons.mp hc with hc0 | hcs
      · exact absurd hc0.symm hcc
      · rcases hv : rowGet r c' with _ | v
        · exact ih hcs hr
        · show rowGet ((c', v) :: rowSelect r cs) c = rowGet r c
          rw [rowGet, if_neg hcc]
          exact ih hcs hr

theorem nrows_concat (dfs : List DataFrame) :
    (concatIgnoreIndex dfs).nrows = (dfs.map DataFrame.rows).flatten.length := by
  simp [concatIgnoreIndex, DataFrame.nrows, List.enum_length]

theorem addFuture_schema_fields (history : DataFrame) (schema : ForecastingSchema)
    (t : Bool) :
    (addFutureCovariatesFromDate history schema t).2.2.id_col = schema.id_col ∧
    (addFutureCovariatesFromDate history schema t).2.2.target = schema.target ∧
    (addFutureCovariatesFromDate history schema t).2.2.time_col = schema.time_col ∧
    (addFutureCovariatesFromDate history schema t).2.2.time_col_dtype
      = schema.time_col_dtype := by
  unfold addFutureCovariatesFromDate
  cases hd : isDateLike schema with
  | false => exact ⟨rfl, rfl, rfl, rfl⟩
  | true => cases t <;> exact ⟨rfl, rfl, rfl, rfl⟩

theorem anyCongr {α : Type} {p q : α → Bool} :
    ∀ {l : List α}, (∀ a ∈ l, p a = q a) → l.any p = l.any q := by
  intro l
  induction l with
  | nil => intro _; rfl
  | cons a l ih =>
    intro h
    simp only [List.any_cons]
    rw [h a (List.mem_cons_self _ _), ih (fun b hb => h b (List.mem_cons_of_mem _ hb))]

theorem map_fst_zip_map_self {α β : Type} (l : List α) (g : α → β) :
    (l.zip (l.map g)).map Prod.fst = l := by
  rw [zip_map_self, List.map_map]
  have he : (Prod.fst ∘ fun a => (a, g a)) = fun (a : α) => a := rfl
  rw [he]
  exact List.map_id' l

theorem mem_zip_map_self {α β : Type} {l : List α} {a : α} (g : α → β) (h : a ∈ l) :
    (a, g a) ∈ l.zip (l.map g) := by
  rw [zip_map_self]
  exact List.mem_map_of_mem _ h

theorem mem_rows_truncSeries {hl : Option Nat} {df : DataFrame} {r : Row}
    (h : r ∈ (truncSeries hl df).rows) : r ∈ df.rows := by
  cases hl with
  | none => exact h
  | some k =>
    by_cases hk : k = 0
    · simpa [truncSeries, hk] using h
    · have h2 : truncSeries (some k) df = df.takeLast k := by
        unfold truncSeries
        simp [hk]
      rw [h2] at h
      exact mem_rows_takeLast h

theorem save_state (f : Forecaster) : f.save.state = f := by
  unfold Forecaster.save
  split <;> rfl

theorem predict_callerTestData_trained {f : Forecaster} (test_data : DataFrame)
    (pcol : String) (h : f.is_trained = true) :
    (f.predict test_data pcol).callerTestData = predictTest f test_data := by
  rw [predict_eq_trained test_data pcol h]
  split
  · rfl
  · rcases predictLoop f (predictCovs f test_data)
      (f.all_ids.zip (f.all_ids.map (predictSeriesOf f test_data))) with e | frames
    · rfl
    · rfl

/-! ## Claim theorems -/

/-- C4: on a forecaster whose trained flag is false, `predict` fails with the
NotFitted error leaving the instance state and the caller's frame unchanged,
and `save` fails with the NotFitted error leaving the instance state
unchanged. -/
theorem claim_C4_not_fitted (f : Forecaster) (test_data : DataFrame) (pcol : String)
    (h : f.is_trained = false) :
    (f.predict test_data pcol).result =
      .error "NotFittedError: Model is not fitted yet." ∧
    (f.predict test_data pcol).state = f ∧
    (f.predict test_data pcol).callerTestData = test_data ∧
    f.save.result = .error "NotFittedError: Model is not fitted yet." ∧
    f.save.state = f := by
  rw [predict_not_trained test_data pcol h]
  refine ⟨rfl, rfl, rfl, ?_, save_state f⟩
  unfold Forecaster.save
  rw [h]
  rfl

/-- Witness for C4 at a concrete untrained forecaster. -/
theorem claim_C4_witness :
    exF0.is_trained = false ∧
    (exF0.predict exTest "pred").result =
      .error "NotFittedError: Model is not fitted yet." ∧
    exF0.save.result = .error "NotFittedError: Model is not fitted yet." :=
  ⟨by decide, (claim_C4_not_fitted exF0 exTest "pred" (by decide)).1,
    (claim_C4_not_fitted exF0 exTest "pred" (by decide)).2.2.2.1⟩

/-- C5 counterexample: `fit` does mutate the schema's registered
future-covariate list — after fitting with a DATE-typed time column, the
caller's schema object's list has gained the two derived names. -/
theorem claim_C5_counterexample :
    (exF0.fit exHist exSchema).callerSchema.future_covariates ≠
      exSchema.future_covariates ∧
    (exF0.fit exHist exSchema).err = none := by
  decide

/-- C5 amended: `predict`'s calendar derivation indeed never mutates the
schema or its covariate list and reuses the stored list; but `fit`'s
training-mode derivation extends the caller's schema list in place with the
two derived names (this in-place append is what makes the stored list
available at prediction time). -/
theorem claim_C5_amended (f g : Forecaster) (history test : DataFrame)
    (schema : ForecastingSchema) (pcol : String)
    (hd : isDateLike schema = true) :
    (f.fit history schema).callerSchema.future_covariates =
      schema.future_covariates ++ [yearName schema, monthName schema] ∧
    ((f.fit history schema).err = none →
      (f.fit history schema).state.data_schema.future_covariates
        = (f.fit history schema).callerSchema.future_covariates) ∧
    (addFutureCovariatesFromDate test g.data_schema false).2.2 = g.data_schema ∧
    predictCovs g test = g.data_schema.future_covariates ∧
    (g.predict test pcol).state = g := by
  refine ⟨?_, ?_, ?_, ?_, predict_state g test pcol⟩
  · rw [fit_callerSchema, addFuture_true_snd history hd]
  · intro hok
    rw [fit_callerSchema]
    obtain ⟨f1, _, hstate⟩ := fit_ok_loop hok
    rw [hstate]
  · rw [addFuture_false_snd]
  · unfold predictCovs
    rw [addFuture_false_snd]

/-- Witness for C5's amended statement at concrete inputs. -/
theorem claim_C5_amended_witness :
    (exF0.fit exHist exSchema).callerSchema.future_covariates =
      exSchema.future_covariates ++ [yearName exSchema, monthName exSchema] ∧
    predictCovs exFit.state exTest = exFit.state.data_schema.future_covariates :=
  ⟨(claim_C5_amended exF0 exFit.state exHist exTest exSchema "pred" (by decide)).1,
    (claim_C5_amended exF0 exFit.state exHist exTest exSchema "pred"
      (by decide)).2.2.2.1⟩

/-- C6 counterexample: the models/end-index key-set invariant is violated by
a reachable state: fit ids `{A, B}` successfully, then re-fit only id `A` —
the stale end-index entry for `B` survives while its model entry is gone. -/
theorem claim_C6_counterexample :
    exFit.err = none ∧ exRefit.err = none ∧
    (dictGet exRefit.state.end_index (Value.str "B")).isSome = true ∧
    (dictGet exRefit.state.models (Value.str "B")).isSome = false := by
  decide

/-- C6 amended: after every operation, every id in the model mapping has an
end-index entry; the converse — key-set equality — holds for any successful
fit from a state with an empty end-index table (in particular any first fit
of a fresh instance), but a re-fit does not clear stale end-index entries;
predict, save and load leave both tables untouched. -/
theorem claim_C6_amended (f : Forecaster) (history test : DataFrame)
    (schema : ForecastingSchema) (pcol : String) :
    (∀ k, (dictGet (f.fit history schema).state.models k).isSome →
       (dictGet (f.fit history schema).state.end_index k).isSome) ∧
    (f.end_index = [] → (f.fit history schema).err = none →
      ∀ k, ((dictGet (f.fit history schema).state.models k).isSome ↔
        (dictGet (f.fit history schema).state.end_index k).isSome)) ∧
    (f.predict test pcol).state = f ∧ f.save.state = f ∧ Forecaster.load f = f := by
  have hsub0 : ∀ k, (dictGet ({ f with models := [] } : Forecaster).models k).isSome →
      (dictGet ({ f with models := [] } : Forecaster).end_index k).isSome := by
    intro k hk
    simp [dictGet] at hk
  refine ⟨?_, ?_, predict_state f test pcol, save_state f, rfl⟩
  · rcases herr : (f.fit history schema).err with _ | e
    · obtain ⟨f1, hloop, hstate⟩ := fit_ok_loop herr
      rw [hstate]
      intro k
      have hsub := fitLoop_models_sub_end schema
        (addFutureCovariatesFromDate history schema true).2.1
        ((fitKeys history schema).zip
          ((fitKeys history schema).map (fitSeriesOf history schema)))
        { f with models := [] } hsub0 k
      rw [hloop] at hsub
      exact hsub
    · obtain ⟨f1, hloop, hstate⟩ := fit_err_loop herr
      rw [hstate]
      intro k
      have hsub := fitLoop_models_sub_end schema
        (addFutureCovariatesFromDate history schema true).2.1
        ((fitKeys history schema).zip
          ((fitKeys history schema).map (fitSeriesOf history schema)))
        { f with models := [] } hsub0 k
      rw [hloop] at hsub
      exact hsub
  · intro hend hok k
    obtain ⟨f1, hloop, hstate⟩ := fit_ok_loop hok
    have hnd : (((fitKeys history schema).zip
        ((fitKeys history schema).map (fitSeriesOf history schema))).map Prod.fst).Nodup := by
      rw [map_fst_zip_map_self]
      exact nodup_groupKeys _ _
    have hmk := fitLoop_ok_models schema
      (addFutureCovariatesFromDate history schema true).2.1 _ _ _ hnd
      (by intro p _; simp) hloop
    have hek := fitLoop_ok_end_keys schema
      (addFutureCovariatesFromDate history schema true).2.1 _ _ _ hnd
      (by intro p _; simp [hend]) hloop
    rw [hstate]
    show (dictGet f1.models k).isSome ↔ (dictGet f1.end_index k).isSome
    rw [dictGet_isSome_iff_mem, dictGet_isSome_iff_mem, hmk, hek]
    simp [hend]

/-- Witness for C6's amended statement at concrete inputs. -/
theorem claim_C6_amended_witness :
    exF0.end_index = [] ∧ exFit.err = none ∧
    ((dictGet exFit.state.models (Value.str "A")).isSome ↔
      (dictGet exFit.state.end_index (Value.str "A")).isSome) :=
  ⟨by decide, by decide,
    (claim_C6_amended exF0 exHist exTest exSchema "pred").2.1 (by decide) (by decide)
      (Value.str "A")⟩

/-- C7 counterexample: a failure while fitting one series does abort the
whole `fit` call, but the observable model mapping is committed
progressively — after the failing call it holds exactly the series fitted
before the failure (here id `A`, fitted before id `B` raised). -/
theorem claim_C7_counterexample :
    exFitFail.err.isSome = true ∧
    exFitFail.state.models.map Prod.fst = [Value.str "A"] := by
  decide

/-- C7 amended: if fitting one series fails, the exception aborts the whole
`fit` call, the trained flag and recorded id list keep their prior values,
but the model mapping attribute is left holding exactly the ids fitted
before the failure (a proper prefix of the grouped id order) — it is not
rolled back. -/
theorem claim_C7_amended (f : Forecaster) (history : DataFrame)
    (schema : ForecastingSchema) (e : String)
    (herr : (f.fit history schema).err = some e) :
    (f.fit history schema).state.is_trained = f.is_trained ∧
    (f.fit history schema).state.all_ids = f.all_ids ∧
    ∃ k, k < (fitKeys history schema).length ∧
      (f.fit history schema).state.models.map Prod.fst =
        (fitKeys history schema).take k := by
  obtain ⟨f1, hloop, hstate⟩ := fit_err_loop herr
  rw [hstate]
  have hcfg := fitLoop_sameCfg schema
    (addFutureCovariatesFromDate history schema true).2.1
    ((fitKeys history schema).zip
      ((fitKeys history schema).map (fitSeriesOf history schema)))
    { f with models := [] }
  rw [hloop] at hcfg
  refine ⟨hcfg.2.2.2.1, hcfg.2.2.2.2.1, ?_⟩
  have hnd : (((fitKeys history schema).zip
      ((fitKeys history schema).map (fitSeriesOf history schema))).map Prod.fst).Nodup := by
    rw [map_fst_zip_map_self]
    exact nodup_groupKeys _ _
  obtain ⟨k, hk, hkeys⟩ := fitLoop_err schema
    (addFutureCovariatesFromDate history schema true).2.1 _ _ _ e hnd
    (by intro p _; simp) hloop
  refine ⟨k, ?_, ?_⟩
  · rw [List.length_zip, List.length_map, Nat.min_self] at hk
    exact hk
  · rw [hkeys, map_fst_zip_map_self]
    simp

/-- Witness for C7's amended statement at the concrete failing fit. -/
theorem claim_C7_amended_witness :
    exFitFail.state.is_trained = exF5.is_trained ∧
    exFitFail.state.all_ids = exF5.all_ids ∧
    ∃ k, k < (fitKeys exHistShortB exSchema).length ∧
      exFitFail.state.models.map Prod.fst = (fitKeys exHistShortB exSchema).take k :=
  claim_C7_amended exF5 exHistShortB exSchema
    "ValueError: the maximum lag must be less than the length of the series"
    (by decide)

/-- C10: after every successful fit, the model-mapping key list equals the
recorded id list exactly, every recorded id's model lookup succeeds, and the
no-model branch of the per-series prediction (the `None` return) is
unreachable for recorded ids. -/
theorem claim_C10_models_cover_ids (f : Forecaster) (history : DataFrame)
    (schema : ForecastingSchema)
    (hok : (f.fit history schema).err = none) :
    (f.fit history schema).state.models.map Prod.fst =
      (f.fit history schema).state.all_ids ∧
    (∀ id ∈ (f.fit history schema).state.all_ids,
      (dictGet (f.fit history schema).state.models id).isSome) ∧
    (∀ id ∈ (f.fit history schema).state.all_ids, ∀ (df : DataFrame)
      (covs : List String),
      (f.fit history schema).state.predictOnSeries df id covs ≠ .ok none) := by
  obtain ⟨f1, hloop, hstate⟩ := fit_ok_loop hok
  have hnd : (((fitKeys history schema).zip
      ((fitKeys history schema).map (fitSeriesOf history schema))).map Prod.fst).Nodup := by
    rw [map_fst_zip_map_self]
    exact nodup_groupKeys _ _
  have hmk := fitLoop_ok_models schema
    (addFutureCovariatesFromDate history schema true).2.1 _ _ _ hnd
    (by intro p _; simp) hloop
  rw [map_fst_zip_map_self] at hmk
  simp only [List.map_nil, List.nil_append] at hmk
  have hsome : ∀ id ∈ (f.fit history schema).state.all_ids,
      (dictGet (f.fit history schema).state.models id).isSome := by
    intro id hid
    rw [hstate] at hid ⊢
    show (dictGet f1.models id).isSome
    rw [dictGet_isSome_iff_mem, hmk]
    exact hid
  refine ⟨?_, hsome, ?_⟩
  · rw [hstate]
    show f1.models.map Prod.fst = fitKeys history schema
    exact hmk
  · intro id hid df covs
    exact predictOnSeries_ne_ok_none (hsome id hid)

/-- Witness for C10 at the concrete fitted forecaster. -/
theorem claim_C10_witness :
    exFit.err = none ∧
    exFit.state.models.map Prod.fst = exFit.state.all_ids ∧
    (dictGet exFit.state.models (Value.str "A")).isSome :=
  ⟨by decide, (claim_C10_models_cover_ids exF0 exHist exSchema (by decide)).1,
    (claim_C10_models_cover_ids exF0 exHist exSchema (by decide)).2.1
      (Value.str "A") (by decide)⟩

/-- C2: after a successful fit, the end index stored for each recorded id is
the number of training rows used for that series (its row count, truncated
by a configured positive history length), and the per-series prediction
re-indexes any forward frame to start exactly there and run contiguously
for the number of forward rows supplied. -/
theorem claim_C2_forward_reindex (f : Forecaster) (history : DataFrame)
    (schema : ForecastingSchema) (id : Value)
    (hwf : schema.wf) (hok : (f.fit history schema).err = none)
    (hid : id ∈ (f.fit history schema).state.all_ids) :
    dictGet (f.fit history schema).state.end_index id =
      some (effLen f.history_length (countId history schema.id_col id)) ∧
    ∀ (df out : DataFrame) (covs : List String),
      (f.fit history schema).state.predictOnSeries df id covs = .ok (some out) →
      out.index = List.range'
        (effLen f.history_length (countId history schema.id_col id)) df.nrows := by
  obtain ⟨f1, hloop, hstate⟩ := fit_ok_loop hok
  have hnd : (((fitKeys history schema).zip
      ((fitKeys history schema).map (fitSeriesOf history schema))).map Prod.fst).Nodup := by
    rw [map_fst_zip_map_self]
    exact nodup_groupKeys _ _
  rw [hstate] at hid
  have hpair : (id, fitSeriesOf history schema id) ∈
      (fitKeys history schema).zip
        ((fitKeys history schema).map (fitSeriesOf history schema)) :=
    mem_zip_map_self _ hid
  have hend := fitLoop_ok_end schema
    (addFutureCovariatesFromDate history schema true).2.1 _ _ _ hnd hloop
    (id, fitSeriesOf history schema id) hpair
  have hserlen : (fitSeriesOf history schema id).nrows
      = countId history schema.id_col id := by
    unfold fitSeriesOf
    rw [nrows_dropCol, nrows_getGroup]
    exact countId_addFuture history schema true id hwf.2.1 hwf.2.2.1
  have hstart : dictGet (f.fit history schema).state.end_index id =
      some (effLen f.history_length (countId history schema.id_col id)) := by
    rw [hstate]
    show dictGet f1.end_index id = _
    rw [hend, nrows_truncSeries, hserlen]
  refine ⟨hstart, ?_⟩
  intro df out covs hps
  obtain ⟨start, m, hs, _, _, hidx, _, _⟩ := predictOnSeries_ok_some_spec hps
  rw [hstart] at hs
  rw [hidx]
  rw [Option.some.injEq] at hs
  rw [hs]

/-- Concrete forward frame for id `A` in the running example. -/
def exDfA : DataFrame := predictSeriesOf exFit.state exTest (Value.str "A")

/-- The concrete per-series prediction output for id `A`. -/
def exOutA : DataFrame :=
  match exFit.state.predictOnSeries exDfA (Value.str "A")
      (predictCovs exFit.state exTest) with
  | .ok (some df) => df
  | _ => ⟨[]⟩

/-- Witness for C2 at the running example: id `A` trained on 3 rows, so its
2-row forward frame is re-indexed to 3..4. -/
theorem claim_C2_witness :
    dictGet exFit.state.end_index (Value.str "A") =
      some (effLen exF0.history_length (countId exHist "id" (Value.str "A"))) ∧
    exOutA.index = List.range'
      (effLen exF0.history_length (countId exHist "id" (Value.str "A"))) exDfA.nrows :=
  ⟨(claim_C2_forward_reindex exF0 exHist exSchema (Value.str "A")
      (by decide) (by decide) (by decide)).1,
    (claim_C2_forward_reindex exF0 exHist exSchema (Value.str "A")
      (by decide) (by decide) (by decide)).2 exDfA exOutA
      (predictCovs exFit.state exTest) (by decide)⟩

/-- If some row of the input lacks the derived year column, the calendar
derivation changes the frame. -/
theorem addFuture_changes {history : DataFrame} {schema : ForecastingSchema}
    {t : Bool} (hd : isDateLike schema = true)
    (hne : yearName schema ≠ monthName schema)
    (h : ∃ r ∈ history.rows, ¬ (rowGet r (yearName schema)).isSome) :
    (addFutureCovariatesFromDate history schema t).1 ≠ history := by
  intro heq
  obtain ⟨r, hr, hnone⟩ := h
  have hrows : (addFutureCovariatesFromDate history schema t).1.rows
      = history.rows := by rw [heq]
  rw [addFuture_fst_eq history t hd, rows_setColBy, rows_setColBy,
    List.map_map] at hrows
  obtain ⟨i, hi, hri⟩ := List.getElem_of_mem hr
  have h2 := congrArg (fun l => l[i]?) hrows
  simp only [List.getElem?_map] at h2
  rw [List.getElem?_eq_getElem hi, hri] at h2
  simp only [Option.map_some'] at h2
  have h3 := Option.some.injEq _ _ ▸ h2
  apply hnone
  rw [← h3]
  simp only [Function.comp]
  rw [rowGet_rowSet_ne _ _ hne, rowGet_rowSet_self]
  rfl

/-- C9: when the schema's time column is DATE/DATETIME, both `fit` and
`predict` mutate the caller's frame object in place: after the call the
caller's frame carries the two derived integer calendar columns on every
row (same row count), and in particular differs from the frame passed in
whenever the columns were not already present. -/
theorem claim_C9_mutates_caller (f g : Forecaster) (history test_data : DataFrame)
    (schema : ForecastingSchema) (pcol : String)
    (hd : isDateLike schema = true) (hne : yearName schema ≠ monthName schema)
    (hg : g.is_trained = true) (hgs : g.data_schema = schema) :
    (∀ r ∈ (f.fit history schema).callerHistory.rows,
       (∃ n : Int, rowGet r (yearName schema) = some (.int n)) ∧
       (∃ n : Int, rowGet r (monthName schema) = some (.int n))) ∧
    (f.fit history schema).callerHistory.nrows = history.nrows ∧
    ((∃ r ∈ history.rows, ¬ (rowGet r (yearName schema)).isSome) →
       (f.fit history schema).callerHistory ≠ history) ∧
    (∀ r ∈ (g.predict test_data pcol).callerTestData.rows,
       (∃ n : Int, rowGet r (yearName schema) = some (.int n)) ∧
       (∃ n : Int, rowGet r (monthName schema) = some (.int n))) ∧
    (g.predict test_data pcol).callerTestData.nrows = test_data.nrows ∧
    ((∃ r ∈ test_data.rows, ¬ (rowGet r (yearName schema)).isSome) →
       (g.predict test_data pcol).callerTestData ≠ test_data) := by
  have hpc : (g.predict test_data pcol).callerTestData =
      (addFutureCovariatesFromDate test_data schema false).1 := by
    rw [predict_callerTestData_trained test_data pcol hg]
    unfold predictTest
    rw [hgs]
  refine ⟨?_, ?_, ?_, ?_, ?_, ?_⟩
  · rw [fit_callerHistory]
    exact mem_rows_addFuture_date hd hne
  · rw [fit_callerHistory]
    exact nrows_addFuture history schema true
  · intro h
    rw [fit_callerHistory]
    exact addFuture_changes hd hne h
  · rw [hpc]
    exact mem_rows_addFuture_date hd hne
  · rw [hpc]
    exact nrows_addFuture test_data schema false
  · intro h
    rw [hpc]
    exact addFuture_changes hd hne h

/-- C8: with a DATE/DATETIME time column and exogenous use enabled, every
successful fit registers the two derived numeric covariate columns
(`<time_col>_year`, `<time_col>_month`) in addition to the declared ones,
both columns are present (with integer values) in the exogenous frame the
per-series model was fitted on, and both are present in the exogenous slice
built for any per-series forward frame at prediction time. -/
theorem claim_C8_calendar_covariates (f : Forecaster) (history : DataFrame)
    (schema : ForecastingSchema)
    (hwf : schema.wf) (hd : isDateLike schema = true)
    (hex : f.use_exogenous = true)
    (hok : (f.fit history schema).err = none) :
    (f.fit history schema).state.data_schema.future_covariates =
      schema.future_covariates ++ [yearName schema, monthName schema] ∧
    (∀ id m, dictGet (f.fit history schema).state.models id = some m →
      ∃ e, m.exog = some e ∧ ∀ r ∈ e.rows,
        (∃ n : Int, rowGet r (yearName schema) = some (.int n)) ∧
        (∃ n : Int, rowGet r (monthName schema) = some (.int n))) ∧
    (∀ (test : DataFrame) (id : Value) (start : Nat),
      ∃ e, mkExog (predictCovs (f.fit history schema).state test)
          (f.fit history schema).state.use_exogenous
          ((predictSeriesOf (f.fit history schema).state test id).setRangeIndex start)
        = some e ∧
        ∀ r ∈ e.rows,
          (∃ n : Int, rowGet r (yearName schema) = some (.int n)) ∧
          (∃ n : Int, rowGet r (monthName schema) = some (.int n))) := by
  obtain ⟨f1, hloop, hstate⟩ := fit_ok_loop hok
  have hcovs : (addFutureCovariatesFromDate history schema true).2.1 =
      schema.future_covariates ++ [yearName schema, monthName schema] :=
    congrArg Prod.fst (addFuture_true_snd history hd)
  have hsch2 : (addFutureCovariatesFromDate history schema true).2.2 =
      { schema with future_covariates :=
          schema.future_covariates ++ [yearName schema, monthName schema] } :=
    congrArg Prod.snd (addFuture_true_snd history hd)
  have hynmem : yearName schema ∈
      schema.future_covariates ++ [yearName schema, monthName schema] := by
    simp
  have hmnmem : monthName schema ∈
      schema.future_covariates ++ [yearName schema, monthName schema] := by
    simp
  have hnotempty : (schema.future_covariates ++
      [yearName schema, monthName schema]).isEmpty = false := by
    simp
  have hcfg := fitLoop_sameCfg schema
    (addFutureCovariatesFromDate history schema true).2.1
    ((fitKeys history schema).zip
      ((fitKeys history schema).map (fitSeriesOf history schema)))
    { f with models := [] }
  rw [hloop] at hcfg
  have huse : f1.use_exogenous = true := by
    rw [hcfg.1]
    exact hex
  have hnd : (((fitKeys history schema).zip
      ((fitKeys history schema).map (fitSeriesOf history schema))).map Prod.fst).Nodup := by
    rw [map_fst_zip_map_self]
    exact nodup_groupKeys _ _
  have hmk := fitLoop_ok_models schema
    (addFutureCovariatesFromDate history schema true).2.1 _ _ _ hnd
    (by intro p _; simp) hloop
  rw [map_fst_zip_map_self] at hmk
  simp only [List.map_nil, List.nil_append] at hmk
  refine ⟨?_, ?_, ?_⟩
  · rw [hstate]
    show (addFutureCovariatesFromDate history schema true).2.2.future_covariates = _
    rw [hsch2]
  · intro id m hm
    rw [hstate] at hm
    have hm' : dictGet f1.models id = some m := hm
    have hmem : id ∈ fitKeys history schema := by
      rw [← hmk]
      rw [← dictGet_isSome_iff_mem, hm']
      rfl
    have hlook := fitLoop_ok_lookup schema
      (addFutureCovariatesFromDate history schema true).2.1 _ _ _ hnd hloop
      (id, fitSeriesOf history schema id) (mem_zip_map_self _ hmem)
    have hm2 : m = ⟨f.lags,
        ((truncSeries f.history_length
          (fitSeriesOf history schema id)).setRangeIndex 0).colValues schema.target,
        mkExog (addFutureCovariatesFromDate history schema true).2.1 f.use_exogenous
          ((truncSeries f.history_length
            (fitSeriesOf history schema id)).setRangeIndex 0)⟩ := by
      apply Option.some.inj
      rw [← hm']
      exact hlook
    have hexg : m.exog = mkExog (addFutureCovariatesFromDate history schema true).2.1
        f.use_exogenous
        ((truncSeries f.history_length (fitSeriesOf history schema id)).setRangeIndex 0) := by
      rw [hm2]
    rw [hexg, hcovs]
    unfold mkExog
    rw [hnotempty, hex]
    simp only [Bool.not_false, Bool.and_self, if_true]
    refine ⟨_, rfl, ?_⟩
    intro r hr
    obtain ⟨r0, hr0mem, hr0⟩ := mem_rows_select hr
    rw [rows_setRangeIndex] at hr0mem
    have hr0mem2 := mem_rows_truncSeries hr0mem
    obtain ⟨r1, hr1mem, hr1⟩ := mem_rows_dropCol hr0mem2
    have hkeys := mem_rows_addFuture_date hd hwf.2.2.2.2.2
      r1 (mem_rows_getGroup hr1mem)
    obtain ⟨⟨ny, hny⟩, ⟨nm, hnm⟩⟩ := hkeys
    have hy0 : rowGet r0 (yearName schema) = some (.int ny) := by
      rw [hr1, rowGet_rowDropCol_ne _ (Ne.symm hwf.2.1), hny]
    have hm0 : rowGet r0 (monthName schema) = some (.int nm) := by
      rw [hr1, rowGet_rowDropCol_ne _ (Ne.symm hwf.2.2.1), hnm]
    constructor
    · refine ⟨ny, ?_⟩
      rw [hr0, rowGet_rowSelect_eq hynmem (by rw [hy0]; rfl), hy0]
    · refine ⟨nm, ?_⟩
      rw [hr0, rowGet_rowSelect_eq hmnmem (by rw [hm0]; rfl), hm0]
  · intro test id start
    have hfields := addFuture_schema_fields history schema true
    have hyn' : yearName (addFutureCovariatesFromDate history schema true).2.2 =
        yearName schema := by
      unfold yearName
      rw [hfields.2.2.1]
    have hmn' : monthName (addFutureCovariatesFromDate history schema true).2.2 =
        monthName schema := by
      unfold monthName
      rw [hfields.2.2.1]
    have hd' : isDateLike (addFutureCovariatesFromDate history schema true).2.2 = true := by
      unfold isDateLike
      rw [hfields.2.2.2]
      exact hd
    have hpcovs : predictCovs (f.fit history schema).state test =
        schema.future_covariates ++ [yearName schema, monthName schema] := by
      unfold predictCovs
      rw [congrArg Prod.fst (addFuture_false_snd test
        (f.fit history schema).state.data_schema)]
      rw [hstate]
      show (addFutureCovariatesFromDate history schema true).2.2.future_covariates = _
      rw [hsch2]
    have huse' : (f.fit history schema).state.use_exogenous = true := by
      rw [hstate]
      exact huse
    rw [hpcovs, huse']
    unfold mkExog
    rw [hnotempty]
    simp only [Bool.not_false, Bool.and_self, if_true]
    refine ⟨_, rfl, ?_⟩
    intro r hr
    obtain ⟨r0, hr0mem, hr0⟩ := mem_rows_select hr
    rw [rows_setRangeIndex] at hr0mem
    obtain ⟨r1, hr1mem, hr1⟩ := mem_rows_dropCol hr0mem
    have hr1mem2 := mem_rows_getGroup hr1mem
    have hds : (f.fit history schema).state.data_schema =
        (addFutureCovariatesFromDate history schema true).2.2 := by
      rw [hstate]
    rw [show predictTest (f.fit history schema).state test =
        (addFutureCovariatesFromDate test
          (addFutureCovariatesFromDate history schema true).2.2 false).1 by
      unfold predictTest
      rw [hds]] at hr1mem2
    have hkeys := mem_rows_addFuture_date hd'
      (by rw [hyn', hmn']; exact hwf.2.2.2.2.2) r1 hr1mem2
    rw [hyn', hmn'] at hkeys
    obtain ⟨⟨ny, hny⟩, ⟨nm, hnm⟩⟩ := hkeys
    have hidc : (f.fit history schema).state.data_schema.id_col = schema.id_col := by
      rw [hds]
      exact hfields.1
    have hy0 : rowGet r0 (yearName schema) = some (.int ny) := by
      rw [hr1, hidc, rowGet_rowDropCol_ne _ (Ne.symm hwf.2.1), hny]
    have hm0 : rowGet r0 (monthName schema) = some (.int nm) := by
      rw [hr1, hidc, rowGet_rowDropCol_ne _ (Ne.symm hwf.2.2.1), hnm]
    constructor
    · refine ⟨ny, ?_⟩
      rw [hr0, rowGet_rowSelect_eq hynmem (by rw [hy0]; rfl), hy0]
    · refine ⟨nm, ?_⟩
      rw [hr0, rowGet_rowSelect_eq hmnmem (by rw [hm0]; rfl), hm0]

/-- Witness for C8 at the running example. -/
theorem claim_C8_witness :
    exFit.state.data_schema.future_covariates =
      exSchema.future_covariates ++ [yearName exSchema, monthName exSchema] ∧
    (∃ e, mkExog (predictCovs exFit.state exTest) exFit.state.use_exogenous
        ((predictSeriesOf exFit.state exTest (Value.str "A")).setRangeIndex 3)
      = some e ∧
      ∀ r ∈ e.rows,
        (∃ n : Int, rowGet r (yearName exSchema) = some (.int n)) ∧
        (∃ n : Int, rowGet r (monthName exSchema) = some (.int n))) :=
  ⟨(claim_C8_calendar_covariates exF0 exHist exSchema
      (by decide) (by decide) (by decide) (by decide)).1,
    (claim_C8_calendar_covariates exF0 exHist exSchema
      (by decide) (by decide) (by decide) (by decide)).2.2 exTest (Value.str "A") 3⟩

/-- C3: ids that appear in the predict input but were never seen at fit time
are absent from the predict output, and raise no error on their account:
deleting their rows from the predict input does not change the result of
`predict` at all. -/
theorem claim_C3_unseen_ids (f : Forecaster) (history test : DataFrame)
    (schema : ForecastingSchema) (pcol : String) (u : Value)
    (hwf : schema.wf) (hok : (f.fit history schema).err = none)
    (hu : u ∉ history.colValues schema.id_col) :
    (∀ out, ((f.fit history schema).state.predict test pcol).result = .ok out →
       ∀ r ∈ out.rows, rowGet r schema.id_col ≠ some u) ∧
    ((f.fit history schema).state.predict
        (test.filterRows (fun r => rowGet r schema.id_col != some u)) pcol).result =
      ((f.fit history schema).state.predict test pcol).result := by
  obtain ⟨f1, hloop, hstate⟩ := fit_ok_loop hok
  have hfields := addFuture_schema_fields history schema true
  have htr : (f.fit history schema).state.is_trained = true := by
    rw [hstate]
  have hgid : (f.fit history schema).state.data_schema.id_col = schema.id_col := by
    rw [hstate]
    exact hfields.1
  have hgtg : (f.fit history schema).state.data_schema.target = schema.target := by
    rw [hstate]
    exact hfields.2.1
  have hgtc : (f.fit history schema).state.data_schema.time_col = schema.time_col := by
    rw [hstate]
    exact hfields.2.2.1
  have hall : (f.fit history schema).state.all_ids = fitKeys history schema := by
    rw [hstate]
  have hneq : ∀ id ∈ (f.fit history schema).state.all_ids, id ≠ u := by
    intro id hid hidu
    apply hu
    rw [hall] at hid
    have hmem : id ∈ (addFutureCovariatesFromDate history schema true).1.colValues
        schema.id_col := mem_groupKeys.mp hid
    rw [colValues_addFuture history schema true hwf.2.1 hwf.2.2.1] at hmem
    exact hidu ▸ hmem
  have hne : (f.fit history schema).state.data_schema.id_col ≠
      (f.fit history schema).state.data_schema.target := by
    rw [hgid, hgtg]
    exact hwf.1
  rw [← hgid]
  constructor
  · intro out hres r hr
    rw [predict_eq_trained test pcol htr] at hres
    by_cases hC : ((f.fit history schema).state.all_ids.any fun id =>
        ((predictTest (f.fit history schema).state test).getGroup
          (f.fit history schema).state.data_schema.id_col id).nrows == 0) = true
    · rw [if_pos hC] at hres
      simp at hres
    · rw [if_neg hC] at hres
      rcases hl : predictLoop (f.fit history schema).state
        (predictCovs (f.fit history schema).state test)
        ((f.fit history schema).state.all_ids.zip
          ((f.fit history schema).state.all_ids.map
            (predictSeriesOf (f.fit history schema).state test))) with e | frames
      · rw [hl] at hres
        simp at hres
      · rw [hl] at hres
        simp only [Except.ok.injEq] at hres
        have hout : out = (concatIgnoreIndex frames).renameCol
            (f.fit history schema).state.data_schema.target pcol := hres.symm
        have hproj := predictLoop_ok_proj pcol hne _ frames hl
        have hrowseq : out.rows.map
            (fun r => rowGet r (f.fit history schema).state.data_schema.id_col) =
            (((f.fit history schema).state.all_ids.zip
              ((f.fit history schema).state.all_ids.map
                (predictSeriesOf (f.fit history schema).state test))).map
              (fun p => List.replicate p.2.nrows (some p.1))).flatten := by
          rw [hout, rows_renameCol, rows_concat, List.map_map]
          exact hproj
        have hmem : rowGet r (f.fit history schema).state.data_schema.id_col ∈
            out.rows.map
              (fun r => rowGet r (f.fit history schema).state.data_schema.id_col) :=
          List.mem_map_of_mem _ hr
        rw [hrowseq] at hmem
        obtain ⟨blk, hblk, hmem2⟩ := List.mem_flatten.mp hmem
        obtain ⟨p, hp, hbe⟩ := List.mem_map.mp hblk
        rw [← hbe] at hmem2
        obtain ⟨-, heq⟩ := List.mem_replicate.mp hmem2
        have hp1 : p.1 ∈ (f.fit history schema).state.all_ids := by
          have := List.mem_map_of_mem Prod.fst hp
          rwa [map_fst_zip_map_self] at this
        rw [heq]
        intro hcontra
        exact hneq p.1 hp1 (Option.some.inj hcontra)
  · have hy' : (f.fit history schema).state.data_schema.id_col ≠
        yearName (f.fit history schema).state.data_schema := by
      unfold yearName
      rw [hgid, hgtc]
      exact hwf.2.1
    have hm' : (f.fit history schema).state.data_schema.id_col ≠
        monthName (f.fit history schema).state.data_schema := by
      unfold monthName
      rw [hgid, hgtc]
      exact hwf.2.2.1
    have hTestEq : predictTest (f.fit history schema).state
        (test.filterRows (fun r =>
          rowGet r (f.fit history schema).state.data_schema.id_col != some u)) =
        (predictTest (f.fit history schema).state test).filterRows (fun r =>
          rowGet r (f.fit history schema).state.data_schema.id_col != some u) := by
      unfold predictTest
      exact addFuture_filterRows_id test (f.fit history schema).state.data_schema
        false u hy' hm'
    have hgg : ∀ id ∈ (f.fit history schema).state.all_ids,
        (predictTest (f.fit history schema).state
          (test.filterRows (fun r =>
            rowGet r (f.fit history schema).state.data_schema.id_col != some u))).getGroup
          (f.fit history schema).state.data_schema.id_col id =
        (predictTest (f.fit history schema).state test).getGroup
          (f.fit history schema).state.data_schema.id_col id := by
      intro id hid
      rw [hTestEq]
      exact getGroup_filter_ne _ (hneq id hid)
    have hcovs2 : predictCovs (f.fit history schema).state
        (test.filterRows (fun r =>
          rowGet r (f.fit history schema).state.data_schema.id_col != some u)) =
        predictCovs (f.fit history schema).state test := by
      unfold predictCovs
      rw [congrArg Prod.fst (addFuture_false_snd _ _),
        congrArg Prod.fst (addFuture_false_snd _ _)]
    have hseries : (f.fit history schema).state.all_ids.map
        (predictSeriesOf (f.fit history schema).state
          (test.filterRows (fun r =>
            rowGet r (f.fit history schema).state.data_schema.id_col != some u))) =
        (f.fit history schema).state.all_ids.map
          (predictSeriesOf (f.fit history schema).state test) := by
      apply List.map_congr_left
      intro id hid
      unfold predictSeriesOf
      rw [hgg id hid]
    rw [predict_eq_trained _ pcol htr, predict_eq_trained _ pcol htr]
    have hany : ((f.fit history schema).state.all_ids.any fun id =>
        ((predictTest (f.fit history schema).state
          (test.filterRows (fun r =>
            rowGet r (f.fit history schema).state.data_schema.id_col != some u))).getGroup
          (f.fit history schema).state.data_schema.id_col id).nrows == 0) =
        ((f.fit history schema).state.all_ids.any fun id =>
          ((predictTest (f.fit history schema).state test).getGroup
            (f.fit history schema).state.data_schema.id_col id).nrows == 0) := by
      apply anyCongr
      intro id hid
      rw [hgg id hid]
    rw [hany, hcovs2, hseries]
    by_cases hC : ((f.fit history schema).state.all_ids.any fun id =>
        ((predictTest (f.fit history schema).state test).getGroup
          (f.fit history schema).state.data_schema.id_col id).nrows == 0) = true
    · rw [if_pos hC, if_pos hC]
    · rw [if_neg hC, if_neg hC]
      rcases hl : predictLoop (f.fit history schema).state
        (predictCovs (f.fit history schema).state test)
        ((f.fit history schema).state.all_ids.zip
          ((f.fit history schema).state.all_ids.map
            (predictSeriesOf (f.fit history schema).state test))) with e | frames
      · rfl
      · rfl

set_option maxHeartbeats 12800000 in
/-- C1: for a successfully fitted forecaster and a successful predict, every
id recorded at fit time contributes exactly one output row per forward row
of the predict input for that id; the per-series frames are concatenated in
the recorded training id order — the id-column projection of the output rows
is exactly the per-id blocks, one per recorded id in that order, each of the
length of that id's forward rows — under a fresh contiguous row index; and
the target column has been renamed to the caller-supplied name in every
row. -/
theorem claim_C1_output_shape (f : Forecaster) (history test : DataFrame)
    (schema : ForecastingSchema) (pcol : String) (out : DataFrame) (id : Value)
    (hwf : schema.wf) (hp1 : pcol ≠ schema.target)
    (hok : (f.fit history schema).err = none)
    (hres : ((f.fit history schema).state.predict test pcol).result = .ok out)
    (hid : id ∈ (f.fit history schema).state.all_ids) :
    countId out schema.id_col id = countId test schema.id_col id ∧
    out.rows.map (fun r => rowGet r schema.id_col) =
      ((f.fit history schema).state.all_ids.map
        (fun i => List.replicate (countId test schema.id_col i) (some i))).flatten ∧
    out.index = List.range out.nrows ∧
    (∀ r ∈ out.rows, rowGet r schema.target = none ∧ (rowGet r pcol).isSome) := by
  obtain ⟨f1, hloop, hstate⟩ := fit_ok_loop hok
  have hfields := addFuture_schema_fields history schema true
  have htr : (f.fit history schema).state.is_trained = true := by
    rw [hstate]
  have hgid : (f.fit history schema).state.data_schema.id_col = schema.id_col := by
    rw [hstate]
    exact hfields.1
  have hgtg : (f.fit history schema).state.data_schema.target = schema.target := by
    rw [hstate]
    exact hfields.2.1
  have hgtc : (f.fit history schema).state.data_schema.time_col = schema.time_col := by
    rw [hstate]
    exact hfields.2.2.1
  have hall : (f.fit history schema).state.all_ids = fitKeys history schema := by
    rw [hstate]
  have hne : (f.fit history schema).state.data_schema.id_col ≠
      (f.fit history schema).state.data_schema.target := by
    rw [hgid, hgtg]
    exact hwf.1
  rw [predict_eq_trained test pcol htr] at hres
  by_cases hC : ((f.fit history schema).state.all_ids.any fun i =>
      ((predictTest (f.fit history schema).state test).getGroup
        (f.fit history schema).state.data_schema.id_col i).nrows == 0) = true
  · rw [if_pos hC] at hres
    simp at hres
  rw [if_neg hC] at hres
  rcases hl : predictLoop (f.fit history schema).state
      (predictCovs (f.fit history schema).state test)
      ((f.fit history schema).state.all_ids.zip
        ((f.fit history schema).state.all_ids.map
          (predictSeriesOf (f.fit history schema).state test))) with e | frames
  · rw [hl] at hres
    simp at hres
  rw [hl] at hres
  simp only [Except.ok.injEq] at hres
  have hout : out = (concatIgnoreIndex frames).renameCol
      (f.fit history schema).state.data_schema.target pcol := hres.symm
  have hproj := predictLoop_ok_proj pcol hne _ frames hl
  have hrowseq : out.rows.map
      (fun r => rowGet r (f.fit history schema).state.data_schema.id_col) =
      (((f.fit history schema).state.all_ids.zip
        ((f.fit history schema).state.all_ids.map
          (predictSeriesOf (f.fit history schema).state test))).map
        (fun p => List.replicate p.2.nrows (some p.1))).flatten := by
    rw [hout, rows_renameCol, rows_concat, List.map_map]
    exact hproj
  have hnd : (f.fit history schema).state.all_ids.Nodup := by
    rw [hall]
    exact nodup_groupKeys _ _
  have hcnt : ∀ i : Value, (predictSeriesOf (f.fit history schema).state test i).nrows
      = countId test (f.fit history schema).state.data_schema.id_col i := by
    intro i
    unfold predictSeriesOf
    rw [nrows_dropCol, nrows_getGroup]
    unfold predictTest
    exact countId_addFuture test (f.fit history schema).state.data_schema false i
      (by unfold yearName; rw [hgid, hgtc]; exact hwf.2.1)
      (by unfold monthName; rw [hgid, hgtc]; exact hwf.2.2.1)
  have hnorm : ((f.fit history schema).state.all_ids.map
      ((fun p : Value × DataFrame => List.replicate p.2.nrows (some p.1)) ∘
        (fun a => (a, predictSeriesOf (f.fit history schema).state test a)))) =
      ((f.fit history schema).state.all_ids.map
        (fun i => List.replicate
          (countId test (f.fit history schema).state.data_schema.id_col i)
          (some i))) :=
    List.map_congr_left (fun a _ => by
      show List.replicate
        (predictSeriesOf (f.fit history schema).state test a).nrows (some a) = _
      rw [hcnt a])
  have hord : out.rows.map
      (fun r => rowGet r (f.fit history schema).state.data_schema.id_col) =
      ((f.fit history schema).state.all_ids.map
        (fun i => List.replicate
          (countId test (f.fit history schema).state.data_schema.id_col i)
          (some i))).flatten := by
    rw [hrowseq, zip_map_self, List.map_map, hnorm]
  refine ⟨?_, ?_, ?_, ?_⟩
  · rw [← hgid, countId_eq_count_proj, hord]
    exact count_flatten_replicate _ _ hnd id hid
  · rw [← hgid]
    exact hord
  · rw [hout, index_renameCol, index_concat, nrows_renameCol, nrows_concat]
  · intro r hr
    rw [hout, rows_renameCol, rows_concat] at hr
    obtain ⟨r0, hr0mem, hr0⟩ := List.mem_map.mp hr
    obtain ⟨blk, hblk, hr0blk⟩ := List.mem_flatten.mp hr0mem
    obtain ⟨fr, hfr, hfrblk⟩ := List.mem_map.mp hblk
    have htgt0 : (rowGet r0 (f.fit history schema).state.data_schema.target).isSome :=
      predictLoop_ok_target hne _ frames hl fr hfr r0 (hfrblk ▸ hr0blk)
    constructor
    · rw [← hgtg, ← hr0]
      exact rowGet_rowRename_none (by rw [hgtg]; exact hp1)
    · rw [← hr0]
      exact rowGet_rowRename_isSome pcol htgt0

set_option maxHeartbeats 1600000 in
/-- Witness for C1 at the running example: id `A` has two forward rows in
the predict input and exactly two output rows; the output rows' id
projection is the `A` block followed by the `B` block, in the recorded id
order; the output index is fresh and contiguous; the target column is
renamed. -/
theorem claim_C1_witness :
    countId exPredOut "id" (Value.str "A") = countId exTest "id" (Value.str "A") ∧
    exPredOut.rows.map (fun r => rowGet r "id") =
      ((exF0.fit exHist exSchema).state.all_ids.map
        (fun i => List.replicate (countId exTest "id" i) (some i))).flatten ∧
    exPredOut.index = List.range exPredOut.nrows ∧
    (rowGet (exPredOut.rows.headD []) "y" = none ∧
      (rowGet (exPredOut.rows.headD []) "pred").isSome) :=
  ⟨(claim_C1_output_shape exF0 exHist exTest exSchema "pred" exPredOut
      (Value.str "A") (by decide) (by decide) (by decide) (by decide) (by decide)).1,
    (claim_C1_output_shape exF0 exHist exTest exSchema "pred" exPredOut
      (Value.str "A") (by decide) (by decide) (by decide) (by decide) (by decide)).2.1,
    (claim_C1_output_shape exF0 exHist exTest exSchema "pred" exPredOut
      (Value.str "A") (by decide) (by decide) (by decide) (by decide) (by decide)).2.2.1,
    (claim_C1_output_shape exF0 exHist exTest exSchema "pred" exPredOut
      (Value.str "A") (by decide) (by decide) (by decide) (by decide) (by decide)).2.2.2
      (exPredOut.rows.headD []) (by decide)⟩

/-- Witness for C3 at the running example: id `C` appears only in the predict
input; it is absent from the output and deleting its rows changes nothing. -/
theorem claim_C3_witness :
    (∀ r ∈ exPredOut.rows, rowGet r "id" ≠ some (Value.str "C")) ∧
    (exFit.state.predict
        (exTest.filterRows (fun r => rowGet r "id" != some (Value.str "C")))
        "pred").result = (exFit.state.predict exTest "pred").result :=
  ⟨(claim_C3_unseen_ids exF0 exHist exTest exSchema "pred" (Value.str "C")
      (by decide) (by decide) (by decide)).1 exPredOut (by decide),
    (claim_C3_unseen_ids exF0 exHist exTest exSchema "pred" (Value.str "C")
      (by decide) (by decide) (by decide)).2⟩

/-- Witness for C9 at the running example: both callers' frames are changed. -/
theorem claim_C9_witness :
    (exF0.fit exHist exFit.state.data_schema).callerHistory ≠ exHist ∧
    (exFit.state.predict exTest "pred").callerTestData ≠ exTest :=
  ⟨(claim_C9_mutates_caller exF0 exFit.state exHist exTest
      exFit.state.data_schema "pred"
      (by decide) (by decide) (by decide) (by decide)).2.2.1
      ⟨exRow "A" 1 10, by decide, by decide⟩,
    (claim_C9_mutates_caller exF0 exFit.state exHist exTest
      exFit.state.data_schema "pred"
      (by decide) (by decide) (by decide) (by decide)).2.2.2.2.2
      ⟨exRow "A" 4 0, by decide, by decide⟩⟩

end RTForecast
